import Mathlib

/-!
Verification development for the ID3v2 codec of the `xm_decryptor` repository.

The Rust sources under `src/src/id3/` are shallowly embedded here:

* `src/id3/stream/frame/content.rs` — the per-frame-type content codec
  (`Encoder`/`Decoder` methods, `find_delim`, `find_closing_delim`);
* `src/id3/stream/tag.rs` — the tag header codec, the orchestrator loops,
  the `Encoder` settings object and `locate_id3v2`;
* `src/id3/tag.rs` — the `Tag` data type and its `PartialEq` instance.

Rust machine integers are embedded as `Nat` with explicit `% 2 ^ w` at the
points where the source wraps or truncates; Rust `String` values are embedded
as lists of Unicode code points (`RString`); fallible functions return
`Except Error`.

Modules of the repository that are not part of the provided sources
(`stream/encoding.rs`, `stream/unsynch.rs`, `stream/frame/{v2,v3,v4}.rs`,
`frame/mod.rs`, `taglike.rs`, `error.rs`) are modelled from the
specification; each such definition says so in its doc comment.
-/

namespace Id3

/-- A Rust `String`, embedded as the list of its Unicode code points. -/
abbrev RString := List Nat

/-- `Version` from `src/id3/tag.rs`: the three supported wire revisions. -/
inductive Version where
  | Id3v22
  | Id3v23
  | Id3v24
deriving DecidableEq, Repr

/-- `Version::minor` from `src/id3/tag.rs`. -/
def Version.minor : Version → Nat
  | .Id3v22 => 2
  | .Id3v23 => 3
  | .Id3v24 => 4

/-- Modelled from the spec: Encoding is "one of Latin1, UTF8, UTF16 (with
byte-order mark), UTF16BE (no mark)" (`stream/encoding.rs` is not among the
provided sources). -/
inductive Encoding where
  | Latin1
  | UTF16
  | UTF16BE
  | UTF8
deriving DecidableEq, Repr

/-- `PictureType`: the 21 enumerated kinds plus `Undefined(byte)`; the
decode table is `Decoder::picture_type` in `content.rs`, the data type is
modelled from the spec ("picture type ∈ 21 kinds + undefined(byte)"). -/
inductive PictureType where
  | Other
  | Icon
  | OtherIcon
  | CoverFront
  | CoverBack
  | Leaflet
  | Media
  | LeadArtist
  | Artist
  | Conductor
  | Band
  | Composer
  | Lyricist
  | RecordingLocation
  | DuringRecording
  | DuringPerformance
  | ScreenCapture
  | BrightFish
  | Illustration
  | BandLogo
  | PublisherLogo
  | Undefined (b : Nat)
deriving DecidableEq, Repr

/-- Modelled from the spec: `u8::from(picture_type)`, the inverse of the
decode table in `Decoder::picture_type`. -/
def PictureType.toByte : PictureType → Nat
  | .Other => 0
  | .Icon => 1
  | .OtherIcon => 2
  | .CoverFront => 3
  | .CoverBack => 4
  | .Leaflet => 5
  | .Media => 6
  | .LeadArtist => 7
  | .Artist => 8
  | .Conductor => 9
  | .Band => 10
  | .Composer => 11
  | .Lyricist => 12
  | .RecordingLocation => 13
  | .DuringRecording => 14
  | .DuringPerformance => 15
  | .ScreenCapture => 16
  | .BrightFish => 17
  | .Illustration => 18
  | .BandLogo => 19
  | .PublisherLogo => 20
  | .Undefined b => b

/-- Timestamp format of synchronised lyrics: MPEG frames or milliseconds. -/
inductive TimestampFormat where
  | Mpeg
  | Ms
deriving DecidableEq, Repr

/-- The seven content kinds of a `SYLT` frame. -/
inductive SynchronisedLyricsType where
  | Other
  | Lyrics
  | Transcription
  | PartName
  | Event
  | Chord
  | Trivia
deriving DecidableEq, Repr

/-- `ExtendedText` frame payload, fields per the spec's data model. -/
structure ExtendedText where
  description : RString
  value : RString
deriving DecidableEq, Repr

/-- `ExtendedLink` frame payload. -/
structure ExtendedLink where
  description : RString
  link : RString
deriving DecidableEq, Repr

/-- `Comment` frame payload: `lang`, `description`, `text`. -/
structure Comment where
  lang : RString
  description : RString
  text : RString
deriving DecidableEq, Repr

/-- `Lyrics` frame payload (same layout as `Comment`). -/
structure Lyrics where
  lang : RString
  description : RString
  text : RString
deriving DecidableEq, Repr

/-- `SynchronisedLyrics` frame payload. -/
structure SynchronisedLyrics where
  lang : RString
  timestamp_format : TimestampFormat
  content_type : SynchronisedLyricsType
  description : RString
  content : List (Nat × RString)
deriving DecidableEq, Repr

/-- `Picture` frame payload. -/
structure Picture where
  mime_type : RString
  picture_type : PictureType
  description : RString
  data : List Nat
deriving DecidableEq, Repr

/-- `Popularimeter` frame payload: user string, rating byte, u64 counter. -/
structure Popularimeter where
  user : RString
  rating : Nat
  counter : Nat
deriving DecidableEq, Repr

/-- `EncapsulatedObject` (GEOB) frame payload. -/
structure EncapsulatedObject where
  mime_type : RString
  filename : RString
  description : RString
  data : List Nat
deriving DecidableEq, Repr

/-- One `MLLT` reference: a pair of deviations (u32 fields in the source). -/
structure MpegLocationLookupTableReference where
  deviate_bytes : Nat
  deviate_millis : Nat
deriving DecidableEq, Repr

/-- `MpegLocationLookupTable` frame payload. In the source
`frames_between_reference : u16`, `bytes_between_reference : u32`,
`millis_between_reference : u32`, and the two bit widths are `u8`. -/
structure MpegLocationLookupTable where
  frames_between_reference : Nat
  bytes_between_reference : Nat
  millis_between_reference : Nat
  bits_for_bytes : Nat
  bits_for_millis : Nat
  references : List MpegLocationLookupTableReference
deriving DecidableEq, Repr

/-- `Private` (PRIV) frame payload. -/
structure Private where
  owner_identifier : RString
  private_data : List Nat
deriving DecidableEq, Repr

/-- `Unknown` frame payload: opaque bytes plus originating version. -/
structure Unknown where
  data : List Nat
  version : Version
deriving DecidableEq, Repr

mutual

/-- Modelled from the spec: a `Frame` is "an id (3 letters for the 2.2 wire
form, 4 letters for 2.3/2.4), a Content payload, and two independent boolean
preservation flags" (`frame/mod.rs` is not among the provided sources). -/
inductive Frame where
  | mk (id : String) (content : Content) (tag_alter : Bool) (file_alter : Bool) : Frame

/-- `Chapter` (CHAP) frame payload, with nested frames. -/
inductive Chapter where
  | mk (element_id : RString) (start_time : Nat) (end_time : Nat)
      (start_offset : Nat) (end_offset : Nat) (frames : List Frame) : Chapter

/-- `TableOfContents` (CTOC) frame payload, with nested frames. -/
inductive TableOfContents where
  | mk (element_id : RString) (top_level : Bool) (ordered : Bool)
      (elements : List RString) (frames : List Frame) : TableOfContents

/-- The closed `Content` union of the data model. -/
inductive Content where
  | text (t : RString) : Content
  | extendedText (c : ExtendedText) : Content
  | link (l : RString) : Content
  | extendedLink (c : ExtendedLink) : Content
  | comment (c : Comment) : Content
  | lyrics (c : Lyrics) : Content
  | synchronisedLyrics (c : SynchronisedLyrics) : Content
  | picture (c : Picture) : Content
  | popularimeter (c : Popularimeter) : Content
  | encapsulatedObject (c : EncapsulatedObject) : Content
  | chapter (c : Chapter) : Content
  | mpegLocationLookupTable (c : MpegLocationLookupTable) : Content
  | priv (c : Private) : Content
  | tableOfContents (c : TableOfContents) : Content
  | unknown (c : Unknown) : Content

end

/-- The frame's id string. -/
def Frame.id : Frame → String
  | .mk i _ _ _ => i

/-- The frame's content payload. -/
def Frame.content : Frame → Content
  | .mk _ c _ _ => c

/-- `Frame::tag_alter_preservation`. -/
def Frame.tag_alter : Frame → Bool
  | .mk _ _ t _ => t

/-- `Frame::file_alter_preservation`. -/
def Frame.file_alter : Frame → Bool
  | .mk _ _ _ f => f

/-- `Tag` from `src/id3/tag.rs`: frames, version, original header size. -/
structure Tag where
  frames : List Frame
  version : Version
  header_tag_size : Nat

/-- `Tag::with_version` (the other fields take their `Default` values). -/
def Tag.with_version (v : Version) : Tag := ⟨[], v, 0⟩

/-- `Tag::with_version_tag_size`. -/
def Tag.with_version_tag_size (v : Version) (s : Nat) : Tag := ⟨[], v, s⟩

/-- Modelled from the spec: the orchestrator assembles "an ordered list of
frames" (insertion order significant); `add_frame` appends
(`taglike.rs` is not among the provided sources). -/
def Tag.add_frame (t : Tag) (f : Frame) : Tag := { t with frames := t.frames ++ [f] }

/-- The error taxonomy from the spec's error-handling design
(`error.rs` is not among the provided sources). -/
inductive ErrorKind where
  | NoTag
  | Parsing
  | InvalidInput
  | UnsupportedFeature
  | StringDecoding (bad : List Nat)
  | Io
deriving DecidableEq

/-- An error: kind, human-readable description, and, for decode errors past
the header boundary, the partially-constructed tag. -/
structure Error where
  kind : ErrorKind
  description : String
  partial_tag : Option Tag

/-- `Error::new`. -/
def Error.new (k : ErrorKind) (d : String) : Error := ⟨k, d, none⟩

/-- `Error::with_tag`: attach a partially-decoded tag to an error. -/
def Error.with_tag (e : Error) (t : Tag) : Error := { e with partial_tag := some t }

/-- The crate's `Result` type. -/
abbrev IdResult (α : Type) := Except Error α

/-- Modelled from the spec: standard UTF-8 encoding of one code point
(1 to 4 bytes). -/
def utf8EncodeChar (c : Nat) : List Nat :=
  if c < 0x80 then [c]
  else if c < 0x800 then [0xC0 + c / 64, 0x80 + c % 64]
  else if c < 0x10000 then [0xE0 + c / 4096, 0x80 + c / 64 % 64, 0x80 + c % 64]
  else [0xF0 + c / 262144, 0x80 + c / 4096 % 64, 0x80 + c / 64 % 64, 0x80 + c % 64]

/-- Modelled from the spec: UTF-8 encoding of a string. -/
def utf8Encode (s : RString) : List Nat := (s.map utf8EncodeChar).flatten

/-- A UTF-8 continuation byte. -/
def utf8Cont (b : Nat) : Bool := 0x80 ≤ b && b < 0xC0

/-- Modelled from the spec: standard UTF-8 decoding; `none` on malformed
input (stray continuation byte, overlong form, surrogate, out of range). -/
def utf8Decode : List Nat → Option RString
  | [] => some []
  | b :: rest =>
    if b < 0x80 then (utf8Decode rest).map (b :: ·)
    else if b < 0xC2 then none
    else if b < 0xE0 then
      match rest with
      | b1 :: rest1 =>
        if utf8Cont b1 then (utf8Decode rest1).map (fun s => ((b - 0xC0) * 64 + (b1 - 0x80)) :: s)
        else none
      | _ => none
    else if b < 0xF0 then
      match rest with
      | b1 :: b2 :: rest2 =>
        let c := (b - 0xE0) * 4096 + (b1 - 0x80) * 64 + (b2 - 0x80)
        if utf8Cont b1 && utf8Cont b2 && decide (0x800 ≤ c) &&
            !(decide (0xD800 ≤ c) && decide (c < 0xE000)) then
          (utf8Decode rest2).map (fun s => c :: s)
        else none
      | _ => none
    else if b < 0xF5 then
      match rest with
      | b1 :: b2 :: b3 :: rest3 =>
        let c := (b - 0xF0) * 262144 + (b1 - 0x80) * 4096 + (b2 - 0x80) * 64 + (b3 - 0x80)
        if utf8Cont b1 && utf8Cont b2 && utf8Cont b3 &&
            decide (0x10000 ≤ c) && decide (c < 0x110000) then
          (utf8Decode rest3).map (fun s => c :: s)
        else none
      | _ => none
    else none

/-- Modelled from the spec: UTF-16 code units of a string (surrogate pairs
for code points beyond the basic multilingual plane). -/
def utf16Units (s : RString) : List Nat :=
  (s.map fun c =>
    if c < 0x10000 then [c]
    else [0xD800 + (c - 0x10000) / 0x400, 0xDC00 + (c - 0x10000) % 0x400]).flatten

/-- Big-endian byte serialization of 16-bit units. -/
def unitsToBytesBE (us : List Nat) : List Nat := (us.map fun u => [u / 256, u % 256]).flatten

/-- Little-endian byte serialization of 16-bit units. -/
def unitsToBytesLE (us : List Nat) : List Nat := (us.map fun u => [u % 256, u / 256]).flatten

/-- Parse big-endian bytes into 16-bit units; `none` on odd length. -/
def bytesToUnitsBE : List Nat → Option (List Nat)
  | [] => some []
  | hi :: lo :: rest => (bytesToUnitsBE rest).map (fun us => (hi * 256 + lo) :: us)
  | _ => none

/-- Parse little-endian bytes into 16-bit units; `none` on odd length. -/
def bytesToUnitsLE : List Nat → Option (List Nat)
  | [] => some []
  | lo :: hi :: rest => (bytesToUnitsLE rest).map (fun us => (hi * 256 + lo) :: us)
  | _ => none

/-- Combine UTF-16 code units into code points; `none` on a lone
surrogate. -/
def unitsToChars : List Nat → Option RString
  | [] => some []
  | u :: rest =>
    if u < 0xD800 || 0xE000 ≤ u then (unitsToChars rest).map (u :: ·)
    else if u < 0xDC00 then
      match rest with
      | u2 :: rest2 =>
        if 0xDC00 ≤ u2 && u2 < 0xE000 then
          (unitsToChars rest2).map (fun s => (0x10000 + (u - 0xD800) * 0x400 + (u2 - 0xDC00)) :: s)
        else none
      | _ => none
    else none

/-- Modelled from the spec: `Encoding::encode` — "determines string byte
layout": Latin1 is one byte per code point, UTF16 carries a byte-order mark
(little-endian body), UTF16BE has no mark, UTF8 is standard. -/
def Encoding.encode : Encoding → RString → List Nat
  | .Latin1, s => s
  | .UTF8, s => utf8Encode s
  | .UTF16, s => 0xFF :: 0xFE :: unitsToBytesLE (utf16Units s)
  | .UTF16BE, s => unitsToBytesBE (utf16Units s)

/-- Build the `StringDecoding` error carrying the offending byte run. -/
def stringDecodingErr (bs : List Nat) : Error :=
  ⟨ErrorKind.StringDecoding bs, "data is not valid text for the claimed encoding", none⟩

/-- Modelled from the spec: `Encoding::decode`; a `StringDecoding` failure
"carries the offending byte run". Latin1 decoding is total; UTF16 requires
its byte-order mark. -/
def Encoding.decode : Encoding → List Nat → IdResult RString
  | .Latin1, bs => .ok bs
  | .UTF8, bs =>
    match utf8Decode bs with
    | some s => .ok s
    | none => .error (stringDecodingErr bs)
  | .UTF16, bs =>
    match bs with
    | 0xFF :: 0xFE :: rest =>
      match (bytesToUnitsLE rest).bind unitsToChars with
      | some s => .ok s
      | none => .error (stringDecodingErr bs)
    | 0xFE :: 0xFF :: rest =>
      match (bytesToUnitsBE rest).bind unitsToChars with
      | some s => .ok s
      | none => .error (stringDecodingErr bs)
    | _ => .error (stringDecodingErr bs)
  | .UTF16BE, bs =>
    match (bytesToUnitsBE bs).bind unitsToChars with
    | some s => .ok s
    | none => .error (stringDecodingErr bs)

/-- The index of the first zero byte in `l`, if any (the scan loop of the
Latin1/UTF8 branch of `find_delim` in `content.rs`). -/
def firstZeroIdx : List Nat → Option Nat
  | [] => none
  | b :: rest => if b = 0 then some 0 else (firstZeroIdx rest).map (· + 1)

/-- The offset of the first full-zero 2-byte pair, scanning pairwise (the
scan loop of the UTF16 branch of `find_delim` in `content.rs`): advances two
bytes at a time, fails when fewer than two bytes remain. -/
def firstZeroPairIdx : List Nat → Option Nat
  | a :: b :: rest =>
    if a = 0 ∧ b = 0 then some 0 else (firstZeroPairIdx rest).map (· + 2)
  | _ => none

/-- `find_delim` from `content.rs`: index of the first delimiter for the
given encoding at or after `index`. -/
def find_delim (encoding : Encoding) (data : List Nat) (index : Nat) : Option Nat :=
  match encoding with
  | .Latin1 | .UTF8 =>
    if index ≥ data.length then none
    else (firstZeroIdx (data.drop index)).map (index + ·)
  | .UTF16 | .UTF16BE =>
    (firstZeroPairIdx (data.drop index)).map (index + ·)

/-- The downward scan of the Latin1/UTF8 branch of `find_closing_delim`:
starting at byte index `i`, the loop body runs only while `i > 0`; at the
first non-zero byte it answers `i + 1` unless that is already the end of
the data. -/
def closingScanL1 (data : List Nat) : Nat → Option Nat
  | 0 => none
  | i + 1 =>
    if data.getD (i + 1) 0 ≠ 0 then
      if i + 2 = data.length then none else some (i + 2)
    else closingScanL1 data i

/-- The downward scan of the UTF16 branch of `find_closing_delim`: moves two
bytes at a time while `i > 1`. -/
def closingScanU16 (data : List Nat) : Nat → Option Nat
  | i + 2 =>
    if data.getD (i + 2) 0 ≠ 0 ∨ data.getD (i + 3) 0 ≠ 0 then
      if i + 4 = data.length then none else some (i + 4)
    else closingScanU16 data i
  | _ => none

/-- `find_closing_delim` from `content.rs`: index of the last delimiter for
the given encoding. -/
def find_closing_delim (encoding : Encoding) (data : List Nat) : Option Nat :=
  match encoding with
  | .Latin1 | .UTF8 =>
    match data.length with
    | 0 => none
    | i + 1 => closingScanL1 data i
  | .UTF16 | .UTF16BE =>
    match data.length with
    | 0 | 1 => none
    | i + 2 => closingScanU16 data (i - i % 2)

/-- `delim_len` from `content.rs`. -/
def delim_len (encoding : Encoding) : Nat :=
  match encoding with
  | .Latin1 | .UTF8 => 1
  | .UTF16 | .UTF16BE => 2

namespace Decoder

/-- `Decoder::bytes`: split off `len` bytes, `Parsing` error when the
buffer is too short.  The decoder state `r : List Nat` is passed and
returned explicitly. -/
def bytes (r : List Nat) (len : Nat) : IdResult (List Nat × List Nat) :=
  if len > r.length then
    .error (Error.new .Parsing "Insufficient data to decode bytes")
  else .ok (r.take len, r.drop len)

/-- `Decoder::byte`. -/
def byte (r : List Nat) : IdResult (Nat × List Nat) := do
  let (b, r) ← bytes r 1
  pure (b.getD 0 0, r)

/-- `Decoder::uint16` (big endian). -/
def uint16 (r : List Nat) : IdResult (Nat × List Nat) := do
  let (b, r) ← bytes r 2
  pure (b.getD 0 0 * 256 + b.getD 1 0, r)

/-- `Decoder::uint24` (big endian). -/
def uint24 (r : List Nat) : IdResult (Nat × List Nat) := do
  let (b, r) ← bytes r 3
  pure (b.getD 0 0 * 65536 + b.getD 1 0 * 256 + b.getD 2 0, r)

/-- `Decoder::uint32` (big endian). -/
def uint32 (r : List Nat) : IdResult (Nat × List Nat) := do
  let (b, r) ← bytes r 4
  pure (b.getD 0 0 * 16777216 + b.getD 1 0 * 65536 + b.getD 2 0 * 256 + b.getD 3 0, r)

/-- `Decoder::string_until_eof`: decode the whole remaining buffer. -/
def string_until_eof (encoding : Encoding) (r : List Nat) : IdResult RString :=
  encoding.decode r

/-- `Decoder::string_delimited`: bytes up to the first delimiter, skipping
the delimiter itself. -/
def string_delimited (encoding : Encoding) (r : List Nat) :
    IdResult (RString × List Nat) := do
  match find_delim encoding r 0 with
  | none => .error (Error.new .Parsing "delimiter not found")
  | some delim => do
    let (b, r) ← bytes r delim
    let (_, r) ← bytes r (delim_len encoding)
    let s ← encoding.decode b
    pure (s, r)

/-- `Decoder::string_fixed`: a fixed number of bytes decoded as Latin1. -/
def string_fixed (r : List Nat) (bytes_len : Nat) : IdResult (RString × List Nat) := do
  let (s, r) ← bytes r bytes_len
  let d ← Encoding.Latin1.decode s
  pure (d, r)

/-- `Decoder::encoding`: the leading encoding-selector byte. -/
def encoding (r : List Nat) : IdResult (Encoding × List Nat) := do
  let (b, r) ← byte r
  match b with
  | 0 => pure (.Latin1, r)
  | 1 => pure (.UTF16, r)
  | 2 => pure (.UTF16BE, r)
  | 3 => pure (.UTF8, r)
  | _ => .error (Error.new .Parsing "unknown encoding")

/-- `Decoder::text_content`: version-dependent delimiter search (2.4 takes
the closing delimiter, 2.2/2.3 the first), then the 2.2/2.3 `/ → NUL`
replacement. -/
def text_content (version : Version) (r : List Nat) : IdResult Content := do
  let (enc, r) ← encoding r
  let stop :=
    match version with
    | .Id3v24 =>
      match find_closing_delim enc r with
      | some i => i
      | none => r.length
    | _ =>
      match find_delim enc r 0 with
      | some i => i
      | none => r.length
  let (b, _) ← bytes r stop
  let text ← enc.decode b
  let text :=
    match version with
    | .Id3v22 | .Id3v23 => text.map fun c => if c = 47 then 0 else c
    | .Id3v24 => text
  pure (.text text)

/-- `Decoder::link_content`: the remaining bytes as a UTF-8 string. -/
def link_content (r : List Nat) : IdResult Content := do
  let s ← Encoding.UTF8.decode r
  pure (.link s)

/-- `Decoder::picture_type`: the picture-type byte (unknown values become
`Undefined`). -/
def picture_type (r : List Nat) : IdResult (PictureType × List Nat) := do
  let (b, r) ← byte r
  let t :=
    match b with
    | 0 => PictureType.Other
    | 1 => PictureType.Icon
    | 2 => PictureType.OtherIcon
    | 3 => PictureType.CoverFront
    | 4 => PictureType.CoverBack
    | 5 => PictureType.Leaflet
    | 6 => PictureType.Media
    | 7 => PictureType.LeadArtist
    | 8 => PictureType.Artist
    | 9 => PictureType.Conductor
    | 10 => PictureType.Band
    | 11 => PictureType.Composer
    | 12 => PictureType.Lyricist
    | 13 => PictureType.RecordingLocation
    | 14 => PictureType.DuringRecording
    | 15 => PictureType.DuringPerformance
    | 16 => PictureType.ScreenCapture
    | 17 => PictureType.BrightFish
    | 18 => PictureType.Illustration
    | 19 => PictureType.BandLogo
    | 20 => PictureType.PublisherLogo
    | b => PictureType.Undefined b
  pure (t, r)

/-- `Decoder::picture_content_v2`: encoding byte, 3-byte format code
restricted to JPG/PNG (`UnsupportedFeature` otherwise), picture type,
delimited description, rest as data. -/
def picture_content_v2 (r : List Nat) : IdResult Content := do
  let (enc, r) ← encoding r
  let (format, r) ← string_fixed r 3
  let mime_type ←
    if format = [80, 78, 71] then pure ([105, 109, 97, 103, 101, 47, 112, 110, 103] : RString)
    else if format = [74, 80, 71] then pure [105, 109, 97, 103, 101, 47, 106, 112, 101, 103]
    else .error (Error.new .UnsupportedFeature "can't determine MIME type for image format")
  let (ptype, r) ← picture_type r
  let (description, r) ← string_delimited enc r
  pure (.picture ⟨mime_type, ptype, description, r⟩)

/-- `Decoder::picture_content_v3`: encoding byte, delimited Latin1 MIME
string, picture type, delimited description, rest as data. -/
def picture_content_v3 (r : List Nat) : IdResult Content := do
  let (enc, r) ← encoding r
  let (mime_type, r) ← string_delimited .Latin1 r
  let (ptype, r) ← picture_type r
  let (description, r) ← string_delimited enc r
  pure (.picture ⟨mime_type, ptype, description, r⟩)

/-- `Decoder::comment_content`. Note: the source reads only **two** bytes
for the language code (`self.string_fixed(2)`), although the encoder writes
three. -/
def comment_content (r : List Nat) : IdResult Content := do
  let (enc, r) ← encoding r
  let (lang, r) ← string_fixed r 2
  let (description, r) ← string_delimited enc r
  let text ← string_until_eof enc r
  pure (.comment ⟨lang, description, text⟩)

/-- `Decoder::lyrics_content` (the source likewise reads a two-byte
language code here). -/
def lyrics_content (r : List Nat) : IdResult Content := do
  let (enc, r) ← encoding r
  let (lang, r) ← string_fixed r 2
  let (description, r) ← string_delimited enc r
  let text ← string_until_eof enc r
  pure (.lyrics ⟨lang, description, text⟩)

/-- `Decoder::popularimeter_content`: delimited Latin1 user, rating byte,
0–8 remaining bytes as a right-aligned big-endian counter. -/
def popularimeter_content (r : List Nat) : IdResult Content := do
  let (user, r) ← string_delimited .Latin1 r
  let (rating, r) ← byte r
  let cbytes := if r.length ≤ 8 then r else r.take 8
  let counter := cbytes.foldl (fun acc b => acc * 256 + b) 0
  pure (.popularimeter ⟨user, rating, counter⟩)

/-- `Decoder::extended_text_content`. -/
def extended_text_content (r : List Nat) : IdResult (Content × Encoding) := do
  let (enc, r) ← encoding r
  let (description, r) ← string_delimited enc r
  let value ← string_until_eof enc r
  pure (.extendedText ⟨description, value⟩, enc)

/-- `Decoder::extended_link_content`. -/
def extended_link_content (r : List Nat) : IdResult Content := do
  let (enc, r) ← encoding r
  let (description, r) ← string_delimited enc r
  let link ← string_until_eof .Latin1 r
  pure (.extendedLink ⟨description, link⟩)

/-- `Decoder::encapsulated_object_content`. -/
def encapsulated_object_content (r : List Nat) : IdResult (Content × Encoding) := do
  let (enc, r) ← encoding r
  let (mime_type, r) ← string_delimited .Latin1 r
  let (filename, r) ← string_delimited enc r
  let (description, r) ← string_delimited enc r
  pure (.encapsulatedObject ⟨mime_type, filename, description, r⟩, enc)

/-- `Decoder::private_content`. -/
def private_content (r : List Nat) : IdResult Content := do
  let (owner_identifier, r) ← string_delimited .Latin1 r
  pure (.priv ⟨owner_identifier, r⟩)

end Decoder

/-- Byte offset of the first SYLT text delimiter: the source scans
`chunks(delim_len)` for a chunk equal to the delimiter and multiplies the
chunk position by the delimiter length. -/
def syltDelimScan (encoding : Encoding) (r : List Nat) : Option Nat :=
  match encoding with
  | .Latin1 => firstZeroIdx r
  | _ => firstZeroPairIdx r

/-- The `while let` loop of `Decoder::synchronised_lyrics_content`: repeated
delimiter scans; the first text segment becomes the description, later ones
pair with the big-endian u32 timestamp that follows.  `fuel` only bounds the
recursion; every iteration consumes at least one byte, so any fuel of at
least the buffer length plus one preserves the source semantics. -/
def sylt_loop (encoding : Encoding) :
    Nat → List Nat → Option RString → List (Nat × RString) →
    IdResult (Option RString × List (Nat × RString))
  | 0, _, _, _ => .error (Error.new .Parsing "SYLT loop fuel exhausted")
  | fuel + 1, r, description, content =>
    match syltDelimScan encoding r with
    | none => .ok (description, content)
    | some i => do
      let text ← encoding.decode (r.take i)
      let r := r.drop (i + delim_len encoding)
      match description with
      | none => sylt_loop encoding fuel r (some text) content
      | some d => do
        let (timestamp, r) ← Decoder.uint32 r
        sylt_loop encoding fuel r (some d) (content ++ [(timestamp, text)])

/-- `Decoder::synchronised_lyrics_content`. Note: like the comment decoder,
the source reads only two bytes of the language code. -/
def Decoder.synchronised_lyrics_content (r : List Nat) : IdResult Content := do
  let (b, r) ← Decoder.byte r
  let enc ←
    match b with
    | 0 => pure Encoding.Latin1
    | 1 => pure Encoding.UTF16
    | _ => .error (Error.new .Parsing "invalid SYLT encoding")
  let (lang, r) ← Decoder.string_fixed r 2
  let (tfb, r) ← Decoder.byte r
  let timestamp_format ←
    match tfb with
    | 1 => pure TimestampFormat.Mpeg
    | 2 => pure TimestampFormat.Ms
    | _ => .error (Error.new .Parsing "invalid SYLT timestamp format")
  let (ctb, r) ← Decoder.byte r
  let content_type ←
    match ctb with
    | 0 => pure SynchronisedLyricsType.Other
    | 1 => pure SynchronisedLyricsType.Lyrics
    | 2 => pure SynchronisedLyricsType.Transcription
    | 3 => pure SynchronisedLyricsType.PartName
    | 4 => pure SynchronisedLyricsType.Event
    | 5 => pure SynchronisedLyricsType.Chord
    | 6 => pure SynchronisedLyricsType.Trivia
    | _ => .error (Error.new .Parsing "invalid SYLT content type")
  let (description, content) ← sylt_loop enc (r.length + 1) r none []
  pure (.synchronisedLyrics
    ⟨lang, timestamp_format, content_type, description.getD [], content⟩)

/-- The eight big-endian bytes of a `u64` (`u64::to_be_bytes`). -/
def toBeBytes8 (x : Nat) : List Nat :=
  [x / 2 ^ 56 % 256, x / 2 ^ 48 % 256, x / 2 ^ 40 % 256, x / 2 ^ 32 % 256,
   x / 2 ^ 24 % 256, x / 2 ^ 16 % 256, x / 2 ^ 8 % 256, x % 256]

/-- One load step of the MLLT decode loop:
`carry |= b << (64 - carry_bits - 8); carry_bits += 8`. -/
def mllt_load (st : Nat × Nat) (b : Nat) : Nat × Nat :=
  (st.1 ||| (b <<< (64 - st.2 - 8)), st.2 + 8)

/-- The `while` loop of `Decoder::mpeg_location_lookup_table_content`: load
`(bits_for_bytes + bits_for_millis) / 8` bytes into the high end of the
64-bit carry accumulator, then shift out the two deviation fields.  `fuel`
only bounds the recursion (each iteration either consumes a byte or runs the
accumulator down), and the caller passes enough for the whole buffer. -/
def mllt_unpack (bb bm : Nat) :
    Nat → List Nat → Nat → Nat → List MpegLocationLookupTableReference →
    IdResult (List MpegLocationLookupTableReference)
  | _, [], _, _, acc => .ok acc
  | 0, _ :: _, _, _, _ => .error (Error.new .InvalidInput "MLLT fuel exhausted")
  | fuel + 1, b :: bs, carry, carryBits, acc =>
    let k := (bb + bm) / 8
    let loaded := (b :: bs).take k
    let rest := (b :: bs).drop k
    let st := loaded.foldl mllt_load (carry, carryBits)
    if st.2 < bb then
      .error (Error.new .InvalidInput "MLLT not enough bits left for reference")
    else
      let dev1 := st.1 >>> (64 - bb)
      let c2 := st.1 <<< bb % 2 ^ 64
      let n2 := st.2 - bb
      if n2 < bm then
        .error (Error.new .InvalidInput "MLLT not enough bits left for reference")
      else
        let dev2 := c2 >>> (64 - bm)
        let c3 := c2 <<< bm % 2 ^ 64
        mllt_unpack bb bm fuel rest c3 (n2 - bm) (acc ++ [⟨dev1, dev2⟩])

/-- `Decoder::mpeg_location_lookup_table_content`. -/
def Decoder.mpeg_location_lookup_table_content (r : List Nat) : IdResult Content := do
  let (frames_between_reference, r) ← Decoder.uint16 r
  let (bytes_between_reference, r) ← Decoder.uint24 r
  let (millis_between_reference, r) ← Decoder.uint24 r
  let (bits_for_bytes, r) ← Decoder.byte r
  let (bits_for_millis, r) ← Decoder.byte r
  if bits_for_bytes = 0 then
    .error (Error.new .InvalidInput "MLLT bits_for_bytes must be > 0")
  else if bits_for_millis = 0 then
    .error (Error.new .InvalidInput "MLLT bits_for_millis must be > 0")
  else do
    let references ← mllt_unpack bits_for_bytes bits_for_millis (r.length + 65) r 0 0 []
    pure (.mpegLocationLookupTable
      ⟨frames_between_reference, bytes_between_reference, millis_between_reference,
        bits_for_bytes, bits_for_millis, references⟩)

namespace Encoder

/-- `Encoder::uint16`: big-endian bytes of a `u16`. -/
def uint16 (n : Nat) : List Nat := [n / 256 % 256, n % 256]

/-- `Encoder::uint24`: the low three big-endian bytes of a `u32`
(`int.to_be_bytes()[1..]` — the high byte is dropped). -/
def uint24 (n : Nat) : List Nat := [n / 65536 % 256, n / 256 % 256, n % 256]

/-- `Encoder::uint32`: big-endian bytes of a `u32`. -/
def uint32 (n : Nat) : List Nat :=
  [n / 16777216 % 256, n / 65536 % 256, n / 256 % 256, n % 256]

/-- `Encoder::delim`: the delimiter for the active encoding. -/
def delim (encoding : Encoding) : List Nat :=
  match encoding with
  | .Latin1 | .UTF8 => [0]
  | .UTF16 | .UTF16BE => [0, 0]

/-- `Encoder::string`. -/
def string (encoding : Encoding) (s : RString) : List Nat := encoding.encode s

/-- `Encoder::encoding`: the encoding-selector byte. -/
def encodingByte (encoding : Encoding) : List Nat :=
  match encoding with
  | .Latin1 => [0]
  | .UTF16 => [1]
  | .UTF16BE => [2]
  | .UTF8 => [3]

/-- The three language-code bytes: the string's UTF-8 bytes padded with
spaces to length 3 (`lang.bytes().chain(iter::repeat(b' ')).take(3)`). -/
def langBytes (lang : RString) : List Nat := (utf8Encode lang ++ [32, 32, 32]).take 3

/-- `Encoder::text_content`: encoding byte, then the text with NUL replaced
by `/` under 2.2/2.3. -/
def text_content (version : Version) (encoding : Encoding) (content : RString) :
    List Nat :=
  encodingByte encoding ++
    match version with
    | .Id3v22 | .Id3v23 =>
      string encoding (content.map fun c => if c = 0 then 47 else c)
    | .Id3v24 => string encoding content

/-- `Encoder::extended_text_content`. -/
def extended_text_content (encoding : Encoding) (c : ExtendedText) : List Nat :=
  encodingByte encoding ++ string encoding c.description ++ delim encoding ++
    string encoding c.value

/-- `Encoder::link_content`: the link's UTF-8 bytes. -/
def link_content (content : RString) : List Nat := utf8Encode content

/-- `Encoder::extended_link_content`. -/
def extended_link_content (encoding : Encoding) (c : ExtendedLink) : List Nat :=
  encodingByte encoding ++ string encoding c.description ++ delim encoding ++
    utf8Encode c.link

/-- `Encoder::encapsulated_object_content`. -/
def encapsulated_object_content (encoding : Encoding) (c : EncapsulatedObject) :
    List Nat :=
  encodingByte encoding ++ utf8Encode c.mime_type ++ [0] ++
    string encoding c.filename ++ delim encoding ++
    string encoding c.description ++ delim encoding ++ c.data

/-- `Encoder::lyrics_content`. -/
def lyrics_content (encoding : Encoding) (c : Lyrics) : List Nat :=
  encodingByte encoding ++ langBytes c.lang ++ string encoding c.description ++
    delim encoding ++ string encoding c.text

/-- `Encoder::synchronised_lyrics_content`: the encoding collapses to
Latin1 or UTF16. -/
def synchronised_lyrics_content (encoding : Encoding) (c : SynchronisedLyrics) :
    List Nat :=
  let enc : Encoding := match encoding with | .Latin1 => .Latin1 | _ => .UTF16
  let encByte : Nat := match enc with | .Latin1 => 0 | _ => 1
  let text_delim : List Nat := match enc with | .Latin1 => [0] | _ => [0, 0]
  let tfb : Nat := match c.timestamp_format with | .Mpeg => 1 | .Ms => 2
  let ctb : Nat :=
    match c.content_type with
    | .Other => 0
    | .Lyrics => 1
    | .Transcription => 2
    | .PartName => 3
    | .Event => 4
    | .Chord => 5
    | .Trivia => 6
  encByte :: langBytes c.lang ++ [tfb, ctb] ++
    string enc c.description ++ text_delim ++
    (c.content.map fun tt => string enc tt.2 ++ text_delim ++ uint32 tt.1).flatten ++
    [0]

/-- `Encoder::comment_content`: encoding byte, 3 space-padded language
bytes, delimited description, text. -/
def comment_content (encoding : Encoding) (c : Comment) : List Nat :=
  encodingByte encoding ++ langBytes c.lang ++ string encoding c.description ++
    delim encoding ++ string encoding c.text

/-- `Encoder::popularimeter_content`: the counter's 8 big-endian bytes with
leading zero bytes stripped. -/
def popularimeter_content (c : Popularimeter) : List Nat :=
  string .Latin1 c.user ++ [0] ++ [c.rating] ++
    (toBeBytes8 c.counter).dropWhile (· = 0)

/-- `Encoder::picture_content_v2`: the MIME type must map onto the 3-byte
JPG/PNG format code, otherwise a `Parsing` error. -/
def picture_content_v2 (encoding : Encoding) (c : Picture) : IdResult (List Nat) := do
  let format ←
    if c.mime_type = [105, 109, 97, 103, 101, 47, 106, 112, 101, 103] ∨
        c.mime_type = [105, 109, 97, 103, 101, 47, 106, 112, 103] then
      pure ([74, 80, 71] : List Nat)
    else if c.mime_type = [105, 109, 97, 103, 101, 47, 112, 110, 103] then
      pure [80, 78, 71]
    else .error (Error.new .Parsing "unsupported MIME type")
  pure (encodingByte encoding ++ format ++ [c.picture_type.toByte] ++
    string encoding c.description ++ delim encoding ++ c.data)

/-- `Encoder::picture_content_v3`. -/
def picture_content_v3 (encoding : Encoding) (c : Picture) : List Nat :=
  encodingByte encoding ++ utf8Encode c.mime_type ++ [0] ++
    [c.picture_type.toByte] ++ string encoding c.description ++ delim encoding ++
    c.data

/-- `Encoder::picture_content`: dispatch on the tag version. -/
def picture_content (version : Version) (encoding : Encoding) (c : Picture) :
    IdResult (List Nat) :=
  match version with
  | .Id3v22 => picture_content_v2 encoding c
  | .Id3v23 | .Id3v24 => pure (picture_content_v3 encoding c)

/-- `Encoder::private_content`. -/
def private_content (c : Private) : List Nat :=
  utf8Encode c.owner_identifier ++ c.private_data

end Encoder

/-- One field of the MLLT encode loop: mask the deviation to its bit width,
shift it into the high end of the 64-bit carry, and emit every full byte
accumulated so far (`Encoder::mpeg_location_lookup_table_content`). -/
def mllt_pack_step (bits field : Nat) (st : Nat × Nat × List Nat) :
    Nat × Nat × List Nat :=
  match st with
  | (carry, carry_bits, out) =>
    let deviate := field &&& ((1 <<< bits) - 1)
    let carry := carry ||| (deviate <<< (64 - bits - carry_bits))
    let carry_bits := carry_bits + bits
    let shift_out := carry_bits / 8
    (carry <<< (shift_out * 8) % 2 ^ 64, carry_bits - shift_out * 8,
      out ++ (toBeBytes8 carry).take shift_out)

/-- `Encoder::mpeg_location_lookup_table_content`: header fields, the
bit-width validation, the carry-accumulator packing loop and the final
partial-byte flush. -/
def Encoder.mpeg_location_lookup_table_content (c : MpegLocationLookupTable) :
    IdResult (List Nat) :=
  let ref_packed_size := c.bits_for_bytes + c.bits_for_millis
  if ref_packed_size % 4 ≠ 0 then
    .error (Error.new .InvalidInput
      "MLLT bits_for_bytes + bits_for_millis must be a multiple of 4")
  else if ref_packed_size > 64 then
    .error (Error.new .InvalidInput
      "MLLT bits_for_bytes + bits_for_millis must be <= 64")
  else
    let st := c.references.foldl
      (fun st r =>
        mllt_pack_step c.bits_for_millis r.deviate_millis
          (mllt_pack_step c.bits_for_bytes r.deviate_bytes st))
      (0, 0, [])
    .ok (Encoder.uint16 c.frames_between_reference ++
      Encoder.uint24 c.bytes_between_reference ++
      Encoder.uint24 c.millis_between_reference ++
      [c.bits_for_bytes, c.bits_for_millis] ++
      st.2.2 ++ (if st.2.1 > 0 then [st.1 >>> 56 % 256] else []))

/-- Modelled from the spec: the unsynchronization byte-stuffing transform —
"insert a 0x00 byte immediately after every 0xFF byte that is followed by a
byte ≥ 0xE0, or after a 0xFF followed by 0x00"
(`stream/unsynch.rs` is not among the provided sources). -/
def unsynch_stuff : List Nat → List Nat
  | a :: b :: rest =>
    if a = 255 ∧ (b ≥ 224 ∨ b = 0) then 255 :: 0 :: unsynch_stuff (b :: rest)
    else a :: unsynch_stuff (b :: rest)
  | l => l

/-- Modelled from the spec: the unsynchronization decode — "strip every
0x00 that immediately follows a 0xFF". -/
def unsynch_strip : List Nat → List Nat
  | 255 :: 0 :: rest => 255 :: unsynch_strip rest
  | a :: rest => a :: unsynch_strip rest
  | [] => []

/-- Modelled from the spec: `encode_synchsafe_u32` — four bytes of 7 bits
each, most-significant first. -/
def synchsafe_encode_u32 (x : Nat) : List Nat :=
  [x / 2 ^ 21 % 128, x / 2 ^ 14 % 128, x / 2 ^ 7 % 128, x % 128]

/-- Modelled from the spec: `decode_synchsafe_u32` — "each byte contributes
its low 7 bits, most-significant byte first", masking rather than
rejecting. -/
def synchsafe_decode_u32 (b0 b1 b2 b3 : Nat) : Nat :=
  b0 % 128 * 2 ^ 21 + b1 % 128 * 2 ^ 14 + b2 % 128 * 2 ^ 7 + b3 % 128

/-- Modelled from the spec: the text encoding a frame encoder uses for its
string fields (2.2/2.3 tags carry UTF16 strings, 2.4 tags UTF8). -/
def default_encoding (version : Version) : Encoding :=
  match version with
  | .Id3v22 | .Id3v23 => .UTF16
  | .Id3v24 => .UTF8

/-- The id of a frame as wire bytes (ids are ASCII letters/digits). -/
def idBytes (id : String) : List Nat := id.data.map Char.toNat

/-- Modelled from the spec: the two 2.3 frame-flag bytes built by
`frame::encode` from the preservation flags. -/
def v3FlagBytes (f : Frame) : List Nat :=
  [(if f.tag_alter then 128 else 0) + (if f.file_alter then 64 else 0), 0]

/-- Modelled from the spec: the two 2.4 frame-flag bytes (preservation
flags, plus the per-frame unsynchronisation bit). -/
def v4FlagBytes (f : Frame) (unsync : Bool) : List Nat :=
  [(if f.tag_alter then 64 else 0) + (if f.file_alter then 32 else 0),
    if unsync then 2 else 0]

mutual

/-- `Encoder::chapter_content`: delimited Latin1 element id, four u32
fields, then the nested frames (encoded with unsynchronisation off). -/
def Encoder.chapter_content (version : Version) (c : Chapter) :
    IdResult (List Nat) :=
  match c with
  | .mk element_id start_time end_time start_offset end_offset frames => do
    let body ← encode_frames version frames
    pure (Encoder.string .Latin1 element_id ++ [0] ++
      Encoder.uint32 start_time ++ Encoder.uint32 end_time ++
      Encoder.uint32 start_offset ++ Encoder.uint32 end_offset ++ body)

/-- `Encoder::table_of_contents_content`: delimited Latin1 element id, the
flags byte, the child count **as a `u8`** (`elements.len() as u8`, i.e.
modulo 256), every delimited child element id, then the nested frames. -/
def Encoder.table_of_contents_content (version : Version) (c : TableOfContents) :
    IdResult (List Nat) :=
  match c with
  | .mk element_id top_level ordered elements frames => do
    let body ← encode_frames version frames
    pure (Encoder.string .Latin1 element_id ++ [0] ++
      [(if top_level then 2 else 0) + (if ordered then 1 else 0)] ++
      [elements.length % 256] ++
      (elements.map fun e => Encoder.string .Latin1 e ++ [0]).flatten ++ body)

/-- The dispatch of `content.rs::encode` over the `Content` union. -/
def encode_content (version : Version) (encoding : Encoding) (c : Content) :
    IdResult (List Nat) :=
  match c with
  | .text t => pure (Encoder.text_content version encoding t)
  | .extendedText e => pure (Encoder.extended_text_content encoding e)
  | .link l => pure (Encoder.link_content l)
  | .extendedLink e => pure (Encoder.extended_link_content encoding e)
  | .encapsulatedObject e => pure (Encoder.encapsulated_object_content encoding e)
  | .lyrics l => pure (Encoder.lyrics_content encoding l)
  | .synchronisedLyrics s => pure (Encoder.synchronised_lyrics_content encoding s)
  | .comment cm => pure (Encoder.comment_content encoding cm)
  | .popularimeter p => pure (Encoder.popularimeter_content p)
  | .picture p => Encoder.picture_content version encoding p
  | .chapter ch => Encoder.chapter_content version ch
  | .mpegLocationLookupTable m => Encoder.mpeg_location_lookup_table_content m
  | .priv p => pure (Encoder.private_content p)
  | .tableOfContents t => Encoder.table_of_contents_content version t
  | .unknown u => pure u.data

/-- Modelled from the spec: `frame::encode` — the version-specific frame
header (2.2: 3-byte id + 3-byte size; 2.3: 4-byte id + 4-byte size + 2 flag
bytes; 2.4: 4-byte id + 4 synchsafe size bytes + 2 flag bytes, the body
byte-stuffed when the frame's unsynchronisation flag is set)
(`stream/frame/{v2,v3,v4}.rs` are not among the provided sources). -/
def frame_encode (version : Version) (unsync : Bool) (f : Frame) :
    IdResult (List Nat) :=
  match f with
  | .mk id content _ _ => do
    let body ← encode_content version (default_encoding version) content
    match version with
    | .Id3v22 => pure (idBytes id ++ Encoder.uint24 body.length ++ body)
    | .Id3v23 => pure (idBytes id ++ Encoder.uint32 body.length ++
        v3FlagBytes f ++ body)
    | .Id3v24 =>
      let body := if unsync then unsynch_stuff body else body
      pure (idBytes id ++ synchsafe_encode_u32 body.length ++
        v4FlagBytes f unsync ++ body)

/-- Encode a list of nested frames in order (`for frame in &content.frames`;
nested frames are always encoded with unsynchronisation off). -/
def encode_frames (version : Version) (frames : List Frame) :
    IdResult (List Nat) :=
  match frames with
  | [] => pure []
  | f :: fs => do
    let b ← frame_encode version false f
    let rest ← encode_frames version fs
    pure (b ++ rest)

end

/-- The element-id reading loop of `Decoder::table_of_contents_content`
(`for _ in 0..element_count { elements.push(string_delimited(Latin1)) }`). -/
def toc_read_elements : Nat → List Nat → IdResult (List RString × List Nat)
  | 0, r => .ok ([], r)
  | n + 1, r => do
    let (s, r) ← Decoder.string_delimited .Latin1 r
    let (rest, r) ← toc_read_elements n r
    pure (s :: rest, r)

/-- `id.starts_with(c)` for a one-character pattern, written out over the
character list so that it reduces inside the kernel. -/
def str_starts_with (s : String) (c : Char) : Bool :=
  match s.data with
  | [] => false
  | c2 :: _ => c2 = c

mutual

/-- The dispatch of `content.rs::decode` over the frame id (exact matches
first, then the `T`/`W` prefix rules, then `Unknown`).  The
`decode_picture` build feature is taken as enabled.  `fuel` only bounds the
frame-nesting recursion; each nesting level strictly shrinks the buffer, so
any fuel of at least the buffer length plus one preserves the source
semantics. -/
def content_decode (fuel : Nat) (id : String) (version : Version)
    (data : List Nat) : IdResult (Content × Option Encoding) :=
  match fuel with
  | 0 => .error (Error.new .Parsing "frame nesting fuel exhausted")
  | fuel + 1 =>
    if id = "PIC" then do
      let c ← Decoder.picture_content_v2 data
      pure (c, none)
    else if id = "APIC" then do
      let c ← Decoder.picture_content_v3 data
      pure (c, none)
    else if id = "TXXX" ∨ id = "TXX" then do
      let (c, enc) ← Decoder.extended_text_content data
      pure (c, some enc)
    else if id = "WXXX" ∨ id = "WXX" then do
      let c ← Decoder.extended_link_content data
      pure (c, none)
    else if id = "COMM" ∨ id = "COM" then do
      let c ← Decoder.comment_content data
      pure (c, none)
    else if id = "POPM" ∨ id = "POP" then do
      let c ← Decoder.popularimeter_content data
      pure (c, none)
    else if id = "USLT" ∨ id = "ULT" then do
      let c ← Decoder.lyrics_content data
      pure (c, none)
    else if id = "SYLT" ∨ id = "SLT" then do
      let c ← Decoder.synchronised_lyrics_content data
      pure (c, none)
    else if id = "GEOB" ∨ id = "GEO" then do
      let (c, enc) ← Decoder.encapsulated_object_content data
      pure (c, some enc)
    else if str_starts_with id 'T' then do
      let c ← Decoder.text_content version data
      pure (c, none)
    else if str_starts_with id 'W' then do
      let c ← Decoder.link_content data
      pure (c, none)
    else if id = "GRP1" then do
      let c ← Decoder.text_content version data
      pure (c, none)
    else if id = "CHAP" then do
      let c ← Decoder.chapter_content fuel version data
      pure (c, none)
    else if id = "MLLT" then do
      let c ← Decoder.mpeg_location_lookup_table_content data
      pure (c, none)
    else if id = "PRIV" then do
      let c ← Decoder.private_content data
      pure (c, none)
    else if id = "CTOC" then do
      let c ← Decoder.table_of_contents_content fuel version data
      pure (c, none)
    else pure (.unknown ⟨data, version⟩, none)

/-- `Decoder::chapter_content`: delimited Latin1 element id, four u32
fields, then nested frames until the buffer is exhausted. -/
def Decoder.chapter_content (fuel : Nat) (version : Version) (r : List Nat) :
    IdResult Content :=
  match fuel with
  | 0 => .error (Error.new .Parsing "frame nesting fuel exhausted")
  | fuel + 1 => do
    let (element_id, r) ← Decoder.string_delimited .Latin1 r
    let (start_time, r) ← Decoder.uint32 r
    let (end_time, r) ← Decoder.uint32 r
    let (start_offset, r) ← Decoder.uint32 r
    let (end_offset, r) ← Decoder.uint32 r
    let frames ← decode_nested_frames fuel version r
    pure (.chapter (.mk element_id start_time end_time start_offset end_offset frames))

/-- `Decoder::table_of_contents_content`: delimited Latin1 element id, the
flags byte, the count byte, that many delimited Latin1 element ids, then
nested frames until the buffer is exhausted. -/
def Decoder.table_of_contents_content (fuel : Nat) (version : Version)
    (r : List Nat) : IdResult Content :=
  match fuel with
  | 0 => .error (Error.new .Parsing "frame nesting fuel exhausted")
  | fuel + 1 => do
    let (element_id, r) ← Decoder.string_delimited .Latin1 r
    let (flags, r) ← Decoder.byte r
    let top_level := flags &&& 2 = 2
    let ordered := flags &&& 1 = 1
    let (element_count, r) ← Decoder.byte r
    let (elements, r) ← toc_read_elements element_count r
    let frames ← decode_nested_frames fuel version r
    pure (.tableOfContents (.mk element_id top_level ordered elements frames))

/-- The `while let Some((_, frame)) = frame::decode(..)` loops of the CHAP
and CTOC decoders: decode nested frames until `None` (end of buffer or
padding).  The version dispatch of `frame::decode` from
`stream/frame/mod.rs` (whose 2.2 arm is `unimplemented!()` in the source,
embedded as an error) is inlined here so that every mutual call passes a
structurally smaller fuel. -/
def decode_nested_frames (fuel : Nat) (version : Version) (r : List Nat) :
    IdResult (List Frame) :=
  match fuel with
  | 0 => .error (Error.new .Parsing "frame nesting fuel exhausted")
  | fuel + 1 => do
    let step ←
      match version with
      | .Id3v22 =>
        (.error (Error.new .Parsing "v2.2 nested frame decode is unimplemented") :
          IdResult (Option (Nat × Frame × List Nat)))
      | .Id3v23 => frame_decode_v3 fuel r
      | .Id3v24 => frame_decode_v4 fuel r
    match step with
    | none => pure []
    | some (_, frame, r) => do
      let rest ← decode_nested_frames fuel version r
      pure (frame :: rest)

/-- Modelled from the spec: the 2.2 frame reader — 3-byte id + 3-byte
big-endian size; `None` on end of region or an all-zero id (padding);
truncation inside a frame is an error (`stream/frame/v2.rs` is not among
the provided sources).  `fuel` only bounds the nesting recursion. -/
def frame_decode_v2 (fuel : Nat) (r : List Nat) :
    IdResult (Option (Nat × Frame × List Nat)) :=
  if r = [] then .ok none
  else if (r.take 3).all (· == 0) then .ok none
  else if r.length < 6 then .error (Error.new .Io "unexpected EOF in frame header")
  else
    match fuel with
    | 0 => .error (Error.new .Parsing "frame nesting fuel exhausted")
    | fuel + 1 =>
      let id := String.mk ((r.take 3).map Char.ofNat)
      let size := r.getD 3 0 * 65536 + r.getD 4 0 * 256 + r.getD 5 0
      let rest := r.drop 6
      if size > rest.length then .error (Error.new .Io "unexpected EOF in frame content")
      else do
        let (content, _) ← content_decode fuel id .Id3v22 (rest.take size)
        pure (some (6 + size, .mk id content false false, rest.drop size))

/-- Modelled from the spec: the 2.3 frame reader — 4-byte id + 4-byte
big-endian size + 2 flag bytes (tag-alter 0x80 and file-alter 0x40 in the
first, compression 0x80 in the second); `None` on end of region or an
all-zero id; truncation inside a frame is an error.  Zlib decompression of
compressed frames (an external crate) is not modelled; no claim involves a
compressed frame (`stream/frame/v3.rs` is not among the provided
sources). -/
def frame_decode_v3 (fuel : Nat) (r : List Nat) :
    IdResult (Option (Nat × Frame × List Nat)) :=
  if r = [] then .ok none
  else if (r.take 4).all (· == 0) then .ok none
  else if r.length < 10 then .error (Error.new .Io "unexpected EOF in frame header")
  else
    match fuel with
    | 0 => .error (Error.new .Parsing "frame nesting fuel exhausted")
    | fuel + 1 =>
      let id := String.mk ((r.take 4).map Char.ofNat)
      let size := r.getD 4 0 * 16777216 + r.getD 5 0 * 65536 + r.getD 6 0 * 256 +
        r.getD 7 0
      let flag1 := r.getD 8 0
      let flag2 := r.getD 9 0
      let rest := r.drop 10
      if size > rest.length then .error (Error.new .Io "unexpected EOF in frame content")
      else if flag2 &&& 128 = 128 then
        .error (Error.new .UnsupportedFeature "compressed frame (not modelled)")
      else do
        let (content, _) ← content_decode fuel id .Id3v23 (rest.take size)
        pure (some (10 + size,
          .mk id content (flag1 &&& 128 = 128) (flag1 &&& 64 = 64), rest.drop size))

/-- Modelled from the spec: the 2.4 frame reader — 4-byte id + 4 synchsafe
size bytes + 2 flag bytes (tag-alter 0x40 and file-alter 0x20 in the first;
compression 0x08 and per-frame unsynchronisation 0x02 in the second, the
body unstuffed when the latter is set); `None` on end of region or an
all-zero id; truncation inside a frame is an error.  Zlib decompression is
not modelled (`stream/frame/v4.rs` is not among the provided sources). -/
def frame_decode_v4 (fuel : Nat) (r : List Nat) :
    IdResult (Option (Nat × Frame × List Nat)) :=
  if r = [] then .ok none
  else if (r.take 4).all (· == 0) then .ok none
  else if r.length < 10 then .error (Error.new .Io "unexpected EOF in frame header")
  else
    match fuel with
    | 0 => .error (Error.new .Parsing "frame nesting fuel exhausted")
    | fuel + 1 =>
      let id := String.mk ((r.take 4).map Char.ofNat)
      let size := synchsafe_decode_u32 (r.getD 4 0) (r.getD 5 0) (r.getD 6 0) (r.getD 7 0)
      let flag1 := r.getD 8 0
      let flag2 := r.getD 9 0
      let rest := r.drop 10
      if size > rest.length then .error (Error.new .Io "unexpected EOF in frame content")
      else if flag2 &&& 8 = 8 then
        .error (Error.new .UnsupportedFeature "compressed frame (not modelled)")
      else
        let raw := rest.take size
        let body := if flag2 &&& 2 = 2 then unsynch_strip raw else raw
        do
          let (content, _) ← content_decode fuel id .Id3v24 body
          pure (some (10 + size,
            .mk id content (flag1 &&& 64 = 64) (flag1 &&& 32 = 32), rest.drop size))

end

/-- The tag header of `stream/tag.rs` (`Header`): version, raw flags byte,
synchsafe-decoded total size, extended-header size. -/
structure Header where
  version : Version
  flags : Nat
  tag_size : Nat
  ext_header_size : Nat

/-- `Header::frame_bytes`. -/
def Header.frame_bytes (h : Header) : Nat := h.tag_size - h.ext_header_size

/-- `Header::tag_size()` (the method, not the field): header size plus
frame-region size. -/
def Header.tag_size_total (h : Header) : Nat := 10 + h.frame_bytes

/-- `Header::decode_base_header` from `stream/tag.rs`, over the
`&header[..nread]` byte slice.  The `bitflags` check (an external crate)
admits exactly the bits 0x80/0x40/0x20/0x10. -/
def Header.decode_base_header (header : List Nat) : IdResult Header := do
  if header.length ≠ 10 then
    .error (Error.new .NoTag "reader is not large enough to contain a id3 tag")
  else if header.take 3 ≠ [73, 68, 51] then
    .error (Error.new .NoTag "reader does not contain an id3 tag")
  else do
    let version ←
      match header.getD 3 0 with
      | 2 => pure Version.Id3v22
      | 3 => pure Version.Id3v23
      | 4 => pure Version.Id3v24
      | _ => .error (Error.new .UnsupportedFeature "Unsupported id3 tag version")
    let flags := header.getD 5 0
    if flags &&& 15 ≠ 0 then
      .error (Error.new .Parsing "unknown tag header flags are set")
    else
      let tag_size := synchsafe_decode_u32 (header.getD 6 0) (header.getD 7 0)
        (header.getD 8 0) (header.getD 9 0)
      if version = .Id3v22 ∧ flags &&& 64 ≠ 0 then
        .error (Error.new .UnsupportedFeature "id3v2.2 compression is not supported")
      else pure ⟨version, flags, tag_size, 0⟩

/-- `Header::decode`: the 10-byte base header, then, if the
extended-header bit is set, a 6-byte sub-header whose declared size must be
at least 6 and whose remaining bytes are read and discarded.  Returns the
header and the unconsumed remainder of the stream. -/
def Header.decode (file : List Nat) : IdResult (Header × List Nat) := do
  let base ← Header.decode_base_header (file.take (min 10 file.length))
  let rest := file.drop 10
  if base.flags &&& 64 ≠ 0 then
    if rest.length < 6 then .error (Error.new .Io "failed to fill whole buffer")
    else
      let ext_size := synchsafe_decode_u32 (rest.getD 0 0) (rest.getD 1 0)
        (rest.getD 2 0) (rest.getD 3 0)
      if ext_size < 6 then
        .error (Error.new .Parsing "Extended header requires has a minimum size of 6")
      else
        pure ({ base with ext_header_size := ext_size }, rest.drop (6 + (ext_size - 6)))
  else pure (base, rest)

/-- The 2.3 orchestrator loop of `decode_remaining`: decode frames while the
tracked offset is below the frame-region length; a decode error is returned
with the partial tag attached (`err.with_tag(tag)`); `Ok(None)` (padding)
breaks the loop.  `fuel` only bounds the recursion (every iteration consumes
at least ten bytes of the buffer); for uniformity a fuel-exhaustion error
also carries the partial tag. -/
def decode_v3_loop :
    Nat → List Nat → Nat → Nat → Tag → IdResult Tag
  | 0, _, _, _, tag =>
    .error ((Error.new .Parsing "orchestrator fuel exhausted").with_tag tag)
  | fuel + 1, r, offset, budget, tag =>
    if offset < budget then
      match frame_decode_v3 (r.length + 1) r with
      | .error err => .error (err.with_tag tag)
      | .ok none => .ok tag
      | .ok (some (bytes_read, frame, r)) =>
        decode_v3_loop fuel r (offset + bytes_read) budget (tag.add_frame frame)
    else .ok tag

/-- The 2.4 orchestrator loop of `decode_remaining`, mirroring
`decode_v3_loop` with the 2.4 frame reader. -/
def decode_v4_loop :
    Nat → List Nat → Nat → Nat → Tag → IdResult Tag
  | 0, _, _, _, tag =>
    .error ((Error.new .Parsing "orchestrator fuel exhausted").with_tag tag)
  | fuel + 1, r, offset, budget, tag =>
    if offset < budget then
      match frame_decode_v4 (r.length + 1) r with
      | .error err => .error (err.with_tag tag)
      | .ok none => .ok tag
      | .ok (some (bytes_read, frame, r)) =>
        decode_v4_loop fuel r (offset + bytes_read) budget (tag.add_frame frame)
    else .ok tag

/-- The loop of `decode_v2_frames`: add frames until an error (returned
with the partial tag attached) or until there are no more frames. -/
def decode_v2_loop : Nat → List Nat → Tag → IdResult Tag
  | 0, _, tag =>
    .error ((Error.new .Parsing "orchestrator fuel exhausted").with_tag tag)
  | fuel + 1, r, tag =>
    match frame_decode_v2 (r.length + 1) r with
    | .error err => .error (err.with_tag tag)
    | .ok none => .ok tag
    | .ok (some (_, frame, r)) => decode_v2_loop fuel r (tag.add_frame frame)

/-- `decode_v2_frames` from `stream/tag.rs`. -/
def decode_v2_frames (r : List Nat) : IdResult Tag :=
  decode_v2_loop (r.length + 1) r (Tag.with_version .Id3v22)

/-- `decode_remaining` from `stream/tag.rs`: the per-version orchestrator.
2.2 limits the reader to the frame region and optionally unwraps the whole
region; 2.3 optionally unwraps the remaining stream and loops by offset;
2.4 loops by offset with per-frame unsynchronisation. -/
def decode_remaining (r : List Nat) (header : Header) : IdResult Tag :=
  match header.version with
  | .Id3v22 =>
    let region := r.take header.frame_bytes
    let region := if header.flags &&& 128 ≠ 0 then unsynch_strip region else region
    decode_v2_frames region
  | .Id3v23 =>
    let bytes := if header.flags &&& 128 ≠ 0 then unsynch_strip r else r
    decode_v3_loop (bytes.length + 1) bytes 0 header.frame_bytes
      (Tag.with_version_tag_size header.version header.tag_size_total)
  | .Id3v24 =>
    decode_v4_loop (r.length + 1) r 0 header.frame_bytes
      (Tag.with_version header.version)

/-- `stream::tag::decode`: header, then the orchestrator. -/
def stream_decode (file : List Nat) : IdResult Tag := do
  let (header, rest) ← Header.decode file
  decode_remaining rest header

/-- `DEFAULT_FILE_DISCARD` from `stream/tag.rs`. -/
def DEFAULT_FILE_DISCARD : List String :=
  ["AENC", "ETCO", "EQUA", "MLLT", "POSS", "SYLT", "SYTC", "RVAD", "TENC",
   "TLEN", "TSIZ"]

/-- The settings object `stream::tag::Encoder` (named `TagEncoder` here to
avoid colliding with the content encoder). -/
structure TagEncoder where
  version : Version
  unsynchronisation : Bool
  compression : Bool
  file_altered : Bool
  padding : Option Nat

/-- The three frame filters at the top of `Encoder::encode`: drop frames
with the tag-alter bit; when the file was altered, drop frames with the
file-alter bit and frames on the default discard list. -/
def saved_frames (e : TagEncoder) (tag : Tag) : List Frame :=
  ((tag.frames.filter fun f => !f.tag_alter).filter
    fun f => !e.file_altered || !f.file_alter).filter
    fun f => !e.file_altered || !(DEFAULT_FILE_DISCARD.contains f.id)

/-- Modelled from the spec: `Frame::validate` — "validate each remaining
frame's content constraints (see 4.4)"; the constraints of 4.4 that do not
depend on the target version are the MLLT bit widths
(`frame/mod.rs` is not among the provided sources). -/
def frame_validate (f : Frame) : IdResult Unit :=
  match f.content with
  | .mpegLocationLookupTable m =>
    if m.bits_for_bytes = 0 ∨ m.bits_for_millis = 0 then
      .error (Error.new .InvalidInput "MLLT bit widths must be > 0")
    else if (m.bits_for_bytes + m.bits_for_millis) % 4 ≠ 0 then
      .error (Error.new .InvalidInput
        "MLLT bits_for_bytes + bits_for_millis must be a multiple of 4")
    else if m.bits_for_bytes + m.bits_for_millis > 64 then
      .error (Error.new .InvalidInput
        "MLLT bits_for_bytes + bits_for_millis must be <= 64")
    else .ok ()
  | _ => .ok ()

/-- The `for frame in saved_frames` loop of `Encoder::encode`: validate
each frame, then append its encoding to the internal `frame_data` buffer. -/
def encode_saved_frames (e : TagEncoder) : List Frame → IdResult (List Nat)
  | [] => .ok []
  | f :: fs => do
    frame_validate f
    let b ← frame_encode e.version e.unsynchronisation f
    let rest ← encode_saved_frames e fs
    pure (b ++ rest)

/-- `Encoder::encode` from `stream/tag.rs`.  The writer is embedded as the
list of bytes written so far: the function returns the result together with
the final writer state.  All writer output happens after the whole frame
loop has succeeded, mirroring the source, where the first
`writer.write_all` follows the loop. -/
def TagEncoder.encode (e : TagEncoder) (tag : Tag) (w : List Nat) :
    IdResult Unit × List Nat :=
  let flags := (if e.unsynchronisation then 128 else 0) +
    (if e.version = .Id3v22 ∧ e.compression then 64 else 0)
  match encode_saved_frames e (saved_frames e tag) with
  | .error err => (.error err, w)
  | .ok frame_data =>
    let frame_data :=
      if e.unsynchronisation then
        match e.version with
        | .Id3v22 | .Id3v23 => unsynch_stuff frame_data
        | .Id3v24 => frame_data
      else frame_data
    let tag_size := frame_data.length + e.padding.getD 0
    (.ok (), w ++ [73, 68, 51] ++ [e.version.minor, 0] ++ [flags] ++
      synchsafe_encode_u32 (tag_size % 2 ^ 32) ++ frame_data ++
      List.replicate (e.padding.getD 0) 0)

/-- `locate_id3v2` from `stream/tag.rs`, over a whole file given as bytes.
A `NoTag` header failure becomes `Ok(None)`; any other error propagates;
otherwise the half-open range from 0 to the tag's total size plus the run
of 0x00 bytes that follows it. -/
def locate_id3v2 (file : List Nat) : IdResult (Option (Nat × Nat)) :=
  match Header.decode file with
  | .error err => if err.kind = .NoTag then .ok none else .error err
  | .ok (header, _) =>
    let tag_size := header.tag_size_total
    let num_padding := ((file.drop tag_size).takeWhile (· == 0)).length
    .ok (some (0, tag_size + num_padding))

/-- The `PartialEq` instance of `Tag` from `src/id3/tag.rs`: equal lengths,
and every frame of the left tag occurs in the right tag's frame list. -/
def Tag.tag_eq (a b : Tag) : Prop :=
  a.frames.length = b.frames.length ∧ ∀ f ∈ a.frames, f ∈ b.frames

/-! ### Shared helper lemmas -/

/-- Reading one byte from a non-empty buffer. -/
theorem Decoder.byte_cons (a : Nat) (r : List Nat) :
    Decoder.byte (a :: r) = .ok (a, r) := by
  unfold Decoder.byte Decoder.bytes
  rw [if_neg (by simp)]
  rfl

/-- Reading a big-endian u16 from a buffer with at least two bytes. -/
theorem Decoder.uint16_cons (a b : Nat) (r : List Nat) :
    Decoder.uint16 (a :: b :: r) = .ok (a * 256 + b, r) := by
  unfold Decoder.uint16 Decoder.bytes
  rw [if_neg (by simp)]
  rfl

/-- Reading a big-endian u24 from a buffer with at least three bytes. -/
theorem Decoder.uint24_cons (a b c : Nat) (r : List Nat) :
    Decoder.uint24 (a :: b :: c :: r) = .ok (a * 65536 + b * 256 + c, r) := by
  unfold Decoder.uint24 Decoder.bytes
  rw [if_neg (by simp)]
  rfl

/-- Reading a big-endian u32 from a buffer with at least four bytes. -/
theorem Decoder.uint32_cons (a b c d : Nat) (r : List Nat) :
    Decoder.uint32 (a :: b :: c :: d :: r) =
      .ok (a * 16777216 + b * 65536 + c * 256 + d, r) := by
  unfold Decoder.uint32 Decoder.bytes
  rw [if_neg (by simp)]
  rfl

/-- Bind on a successful `IdResult` computation. -/
theorem idbind_ok {α β : Type} (a : α) (f : α → IdResult β) :
    (Except.ok a : IdResult α) >>= f = f a := rfl

/-- Bind on a failed `IdResult` computation. -/
theorem idbind_err {α β : Type} (e : Error) (f : α → IdResult β) :
    (Except.error e : IdResult α) >>= f = .error e := rfl

/-! ### Claims -/

/-- **C1.** The claim states that frame encode/decode round-trips, in
particular a `Comment { lang: "eng", description: "d", text: "t" }` encoded
under 2.4 decodes back identically, the wire form carrying a 3-byte
space-padded language code.  The encoder does write three language bytes,
but `Decoder::comment_content` reads the language back with
`string_fixed(2)`, so the decoded comment is
`{ lang: "en", description: "gd", text: "t" }` — the round trip fails and
the code contradicts both its own encoder and the spec (a code bug).  This
theorem evaluates the codec at the failing input. -/
theorem C1_comment_roundtrip_code_bug :
    Decoder.comment_content
        (Encoder.comment_content .Latin1 ⟨[101, 110, 103], [100], [116]⟩) =
      .ok (.comment ⟨[101, 110], [103, 100], [116]⟩) ∧
    (⟨[101, 110], [103, 100], [116]⟩ : Comment) ≠ ⟨[101, 110, 103], [100], [116]⟩ :=
  ⟨rfl, by decide⟩

/-- **C2.** Text-frame decode under 2.4 locates the closing delimiter while
2.2/2.3 stop at the first one: the 2.4 body `[3, 'a', 0, 'b', 0]` (UTF8)
decodes to `"a\0b"`, whereas under 2.2/2.3 the same body decodes to
`"a"`. -/
theorem C2_text_closing_delimiter :
    Decoder.text_content .Id3v24 [3, 97, 0, 98, 0] = .ok (.text [97, 0, 98]) ∧
    Decoder.text_content .Id3v23 [3, 97, 0, 98, 0] = .ok (.text [97]) ∧
    Decoder.text_content .Id3v22 [3, 97, 0, 98, 0] = .ok (.text [97]) :=
  ⟨rfl, rfl, rfl⟩

/-- **C8.** A base header with major version 2 and the compression bit
(0x40) set is rejected with `UnsupportedFeature` while decoding the
10-byte header — for every size field and regardless of whatever frame
bytes follow, so no frame byte is ever consumed. -/
theorem C8_v22_compression_rejected (s1 s2 s3 s4 : Nat) (rest : List Nat) :
    Header.decode_base_header [73, 68, 51, 2, 0, 64, s1, s2, s3, s4] =
      .error (Error.new .UnsupportedFeature "id3v2.2 compression is not supported") ∧
    stream_decode ([73, 68, 51, 2, 0, 64, s1, s2, s3, s4] ++ rest) =
      .error (Error.new .UnsupportedFeature "id3v2.2 compression is not supported") := by
  have base : Header.decode_base_header [73, 68, 51, 2, 0, 64, s1, s2, s3, s4] =
      .error (Error.new .UnsupportedFeature "id3v2.2 compression is not supported") := by
    simp [Header.decode_base_header, show (64 &&& 15 : Nat) = 0 from by decide,
      show (64 &&& 64 : Nat) = 64 from by decide]
  refine ⟨base, ?_⟩
  unfold stream_decode Header.decode
  rw [show min 10 (([73, 68, 51, 2, 0, 64, s1, s2, s3, s4] ++ rest).length) = 10 by
    simp only [List.length_append, List.length_cons, List.length_nil]; omega]
  rw [show ([73, 68, 51, 2, 0, 64, s1, s2, s3, s4] ++ rest).take 10 =
    [73, 68, 51, 2, 0, 64, s1, s2, s3, s4] from rfl]
  rw [base]
  rfl

/-- **C5.** Encoding a `Picture` whose MIME type is none of `image/jpeg`,
`image/jpg`, `image/png` fails with a `Parsing` error under 2.2 but
succeeds under 2.3; and decoding a 2.2 `PIC` body whose 3-byte format code
is neither `JPG` nor `PNG` fails with `UnsupportedFeature`. -/
theorem C5_picture_mime_restriction :
    (∀ (enc : Encoding) (p : Picture),
        p.mime_type ≠ [105, 109, 97, 103, 101, 47, 106, 112, 101, 103] →
        p.mime_type ≠ [105, 109, 97, 103, 101, 47, 106, 112, 103] →
        p.mime_type ≠ [105, 109, 97, 103, 101, 47, 112, 110, 103] →
        Encoder.picture_content .Id3v22 enc p =
          .error (Error.new .Parsing "unsupported MIME type")) ∧
    (∀ (enc : Encoding) (p : Picture), ∃ bs,
        Encoder.picture_content .Id3v23 enc p = .ok bs) ∧
    (∀ (format rest : List Nat), format.length = 3 →
        format ≠ [74, 80, 71] → format ≠ [80, 78, 71] →
        Decoder.picture_content_v2 (0 :: (format ++ rest)) =
          .error (Error.new .UnsupportedFeature
            "can't determine MIME type for image format")) := by
  refine ⟨?_, ?_, ?_⟩
  · intro enc p hjpeg hjpg hpng
    unfold Encoder.picture_content Encoder.picture_content_v2
    rw [if_neg (by rintro (h | h) <;> [exact hjpeg h; exact hjpg h]), if_neg hpng]
    rfl
  · intro enc p
    exact ⟨_, rfl⟩
  · intro format rest hlen hjpg hpng
    have henc : Decoder.encoding (0 :: (format ++ rest)) = .ok (.Latin1, format ++ rest) := by
      unfold Decoder.encoding
      rw [Decoder.byte_cons]
      rfl
    have hfix : Decoder.string_fixed (format ++ rest) 3 = .ok (format, rest) := by
      unfold Decoder.string_fixed Decoder.bytes
      rw [if_neg (by simp [hlen]), List.take_left' hlen, List.drop_left' hlen]
      rfl
    unfold Decoder.picture_content_v2
    rw [henc, idbind_ok]
    simp only []
    rw [hfix, idbind_ok]
    simp only []
    rw [if_neg hpng, if_neg hjpg]
    rfl

/-- **C10.** Tag equality compares only the frame lists: it holds exactly
when the lengths agree and every frame of the left tag occurs in the right
tag's list; it ignores the version and original-header-size fields; and a
tag whose frames are any permutation of another's compares equal in both
directions. -/
theorem C10_tag_eq_frames_only :
    (∀ a b : Tag, a.tag_eq b ↔
      (a.frames.length = b.frames.length ∧ ∀ f ∈ a.frames, f ∈ b.frames)) ∧
    (∀ (fs : List Frame) (v1 v2 : Version) (h1 h2 : Nat),
      Tag.tag_eq ⟨fs, v1, h1⟩ ⟨fs, v2, h2⟩) ∧
    (∀ a b : Tag, a.frames.Perm b.frames → (a.tag_eq b ∧ b.tag_eq a)) := by
  refine ⟨fun a b => Iff.rfl, fun fs v1 v2 h1 h2 => ⟨rfl, fun f hf => hf⟩, ?_⟩
  intro a b h
  exact ⟨⟨h.length_eq, fun f hf => h.mem_iff.mp hf⟩,
    ⟨h.length_eq.symm, fun f hf => h.mem_iff.mpr hf⟩⟩

/-- Witness for C10: two tags holding the same two frames in swapped order,
with different versions and header sizes, compare equal both ways. -/
theorem C10_tag_eq_frames_only_witness :
    Tag.tag_eq
        ⟨[.mk "TIT2" (.text [97]) false false, .mk "TALB" (.text [98]) false false],
          .Id3v24, 0⟩
        ⟨[.mk "TALB" (.text [98]) false false, .mk "TIT2" (.text [97]) false false],
          .Id3v22, 5⟩ ∧
    Tag.tag_eq
        ⟨[.mk "TALB" (.text [98]) false false, .mk "TIT2" (.text [97]) false false],
          .Id3v22, 5⟩
        ⟨[.mk "TIT2" (.text [97]) false false, .mk "TALB" (.text [98]) false false],
          .Id3v24, 0⟩ :=
  C10_tag_eq_frames_only.2.2 _ _
    (List.Perm.swap (Frame.mk "TALB" (.text [98]) false false)
      (Frame.mk "TIT2" (.text [97]) false false) [])

/-- **C7.** `Encoder::encode` is all-or-nothing with respect to its writer:
when validation or content encoding of any surviving frame fails, the
writer is left exactly as it was (zero bytes written); on success the
output is appended in one piece after the whole frame loop. -/
theorem C7_encode_all_or_nothing (e : TagEncoder) (tag : Tag) (w : List Nat) :
    (∀ err, (TagEncoder.encode e tag w).1 = .error err →
      (TagEncoder.encode e tag w).2 = w) ∧
    ((TagEncoder.encode e tag w).1 = .ok () →
      ∃ out, (TagEncoder.encode e tag w).2 = w ++ out) := by
  cases h : encode_saved_frames e (saved_frames e tag) with
  | error err2 =>
    have he : TagEncoder.encode e tag w = (.error err2, w) := by
      unfold TagEncoder.encode
      rw [h]
    rw [he]
    exact ⟨fun _ _ => rfl, fun hok => by simp at hok⟩
  | ok fd =>
    have h1 : (TagEncoder.encode e tag w).1 = .ok () := by
      unfold TagEncoder.encode
      rw [h]
    refine ⟨fun err herr => ?_, fun _ => ?_⟩
    · rw [h1] at herr
      simp at herr
    · unfold TagEncoder.encode
      rw [h]
      dsimp only
      simp only [List.append_assoc]
      exact ⟨_, rfl⟩

/-- Witness for C7: a tag holding an MLLT frame with invalid bit widths
makes `encode` fail, and the writer (primed with one byte) is returned
unchanged. -/
theorem C7_encode_all_or_nothing_witness :
    (TagEncoder.encode ⟨.Id3v24, false, false, false, none⟩
      ⟨[.mk "MLLT" (.mpegLocationLookupTable ⟨0, 0, 0, 3, 3, []⟩) false false],
        .Id3v24, 0⟩ [9]).2 = [9] :=
  (C7_encode_all_or_nothing ⟨.Id3v24, false, false, false, none⟩
    ⟨[.mk "MLLT" (.mpegLocationLookupTable ⟨0, 0, 0, 3, 3, []⟩) false false],
      .Id3v24, 0⟩ [9]).1
    (Error.new .InvalidInput "MLLT bits_for_bytes + bits_for_millis must be a multiple of 4")
    rfl

/-- **C6.** `locate_id3v2` turns a `NoTag` header failure into `Ok(None)`,
propagates every other header error, and otherwise returns the half-open
range starting at 0 whose end is the total tag size (10-byte header plus
frame region) plus the length of the run of 0x00 bytes that immediately
follows the tag. -/
theorem C6_locate_id3v2 (file : List Nat) :
    ((∃ e, Header.decode file = .error e ∧ e.kind = .NoTag) →
      locate_id3v2 file = .ok none) ∧
    (∀ e, Header.decode file = .error e → e.kind ≠ .NoTag →
      locate_id3v2 file = .error e) ∧
    (∀ h rest, Header.decode file = .ok (h, rest) →
      locate_id3v2 file = .ok (some (0,
        (10 + (h.tag_size - h.ext_header_size)) +
          ((file.drop (10 + (h.tag_size - h.ext_header_size))).takeWhile
            (fun b => b == 0)).length))) := by
  refine ⟨?_, ?_, ?_⟩
  · rintro ⟨e, he, hk⟩
    unfold locate_id3v2
    rw [he]
    simp [hk]
  · intro e he hk
    unfold locate_id3v2
    rw [he]
    simp [hk]
  · intro h rest hok
    unfold locate_id3v2
    rw [hok]
    rfl

/-- Witness for C6 on three concrete files: a file too short to hold a
header (`NoTag`, located as `none`), a file with an unsupported version
byte (error propagated), and a minimal empty 2.4 tag followed by three
0x00 padding bytes and junk (range `[0, 13)`). -/
theorem C6_locate_id3v2_witness :
    locate_id3v2 [1, 2, 3] = .ok none ∧
    locate_id3v2 [73, 68, 51, 9, 0, 0, 0, 0, 0, 0] =
      .error (Error.new .UnsupportedFeature "Unsupported id3 tag version") ∧
    locate_id3v2 ([73, 68, 51, 4, 0, 0, 0, 0, 0, 0] ++ [0, 0, 0, 5, 6]) =
      .ok (some (0, 13)) := by
  refine ⟨(C6_locate_id3v2 [1, 2, 3]).1
      ⟨Error.new .NoTag "reader is not large enough to contain a id3 tag", rfl, rfl⟩,
    (C6_locate_id3v2 [73, 68, 51, 9, 0, 0, 0, 0, 0, 0]).2.1
      (Error.new .UnsupportedFeature "Unsupported id3 tag version") rfl (by decide), ?_⟩
  have := (C6_locate_id3v2 ([73, 68, 51, 4, 0, 0, 0, 0, 0, 0] ++ [0, 0, 0, 5, 6])).2.2
    ⟨.Id3v24, 0, 0, 0⟩ [0, 0, 0, 5, 6] (by rfl)
  exact this

/-- `firstZeroIdx` finds the delimiter right after a zero-free chunk. -/
theorem firstZeroIdx_append_zero (e : List Nat) (tail : List Nat)
    (he : (0 : Nat) ∉ e) : firstZeroIdx (e ++ 0 :: tail) = some e.length := by
  induction e with
  | nil => simp [firstZeroIdx]
  | cons a e ih =>
    have ha : a ≠ 0 := by
      intro hz
      exact he (hz ▸ List.mem_cons_self a e)
    have he2 : (0 : Nat) ∉ e := fun hm => he (List.mem_cons_of_mem a hm)
    simp [firstZeroIdx, ha, ih he2]

/-- Reading a delimited Latin1 string laid out as the zero-free string
bytes, the NUL delimiter, then the rest. -/
theorem string_delimited_latin1 (e tail : List Nat) (he : (0 : Nat) ∉ e) :
    Decoder.string_delimited .Latin1 (e ++ 0 :: tail) = .ok (e, tail) := by
  have hd : find_delim .Latin1 (e ++ 0 :: tail) 0 = some e.length := by
    unfold find_delim
    rw [if_neg (by simp), List.drop_zero, firstZeroIdx_append_zero e tail he]
    simp
  have hb1 : Decoder.bytes (e ++ 0 :: tail) e.length = .ok (e, 0 :: tail) := by
    unfold Decoder.bytes
    rw [if_neg (by simp only [List.length_append, List.length_cons]; omega),
      List.take_left, List.drop_left]
  have hb2 : Decoder.bytes (0 :: tail) (delim_len .Latin1) = .ok ([0], tail) := by
    unfold Decoder.bytes delim_len
    rw [if_neg (by simp)]
    rfl
  unfold Decoder.string_delimited
  rw [hd]
  simp only []
  rw [hb1, idbind_ok]
  simp only []
  rw [hb2, idbind_ok]
  rfl

/-- The element-id reading loop reads back exactly `k` of the delimited
element ids (`k` at most the number written), leaving the remaining ids
and the tail untouched. -/
theorem toc_read_elements_spec (k : Nat) (els : List RString) (tail : List Nat)
    (hk : k ≤ els.length) (h : ∀ e ∈ els, (0 : Nat) ∉ e) :
    toc_read_elements k ((els.map fun e => e ++ [0]).flatten ++ tail) =
      .ok (els.take k, ((els.drop k).map fun e => e ++ [0]).flatten ++ tail) := by
  induction k generalizing els tail with
  | zero => simp [toc_read_elements]
  | succ k ih =>
    cases els with
    | nil => simp at hk
    | cons e els =>
      have he : (0 : Nat) ∉ e := h e (List.mem_cons_self e els)
      have hels : ∀ x ∈ els, (0 : Nat) ∉ x := fun x hx => h x (List.mem_cons_of_mem e hx)
      unfold toc_read_elements
      rw [show ((e :: els).map fun x => x ++ [0]).flatten ++ tail =
        e ++ 0 :: ((els.map fun x => x ++ [0]).flatten ++ tail) by simp]
      rw [string_delimited_latin1 e _ he, idbind_ok]
      simp only []
      rw [ih els tail (by simpa using hk) hels, idbind_ok]
      rfl

/-- **C9.** `CTOC` child counts: encoding writes the child count as
`elements.len() as u8` (the length modulo 256) while still writing all `n`
delimited element-id strings; the decoder's element loop then reads back
exactly `n mod 256` element ids before handing the rest of the buffer to
the nested-frame loop; and for tables with fewer than 256 elements (and no
nested frames) decoding the encoding restores the table exactly, count
byte equal to the exact element count. -/
theorem C9_ctoc_count_byte :
    (∀ (version : Version) (eid : RString) (top ord : Bool) (els : List RString),
      Encoder.table_of_contents_content version (.mk eid top ord els []) =
        .ok (eid ++ [0] ++ [(if top then 2 else 0) + (if ord then 1 else 0)] ++
          [els.length % 256] ++ (els.map fun e => e ++ [0]).flatten)) ∧
    (∀ (els : List RString) (tail : List Nat), (∀ e ∈ els, (0 : Nat) ∉ e) →
      toc_read_elements (els.length % 256) ((els.map fun e => e ++ [0]).flatten ++ tail) =
        .ok (els.take (els.length % 256),
          ((els.drop (els.length % 256)).map fun e => e ++ [0]).flatten ++ tail)) ∧
    (∀ (version : Version) (f : Nat) (eid : RString) (top ord : Bool)
        (els : List RString), version ≠ .Id3v22 → els.length < 256 →
        (0 : Nat) ∉ eid → (∀ e ∈ els, (0 : Nat) ∉ e) →
      Decoder.table_of_contents_content (f + 2) version
          (eid ++ [0] ++ [(if top then 2 else 0) + (if ord then 1 else 0)] ++
            [els.length % 256] ++ (els.map fun e => e ++ [0]).flatten) =
        .ok (.tableOfContents (.mk eid top ord els []))) := by
  refine ⟨?_, ?_, ?_⟩
  · intro version eid top ord els
    simp only [Encoder.table_of_contents_content, encode_frames, Encoder.string,
      Encoding.encode, List.append_nil, idbind_ok]
    simp
    rfl
  · intro els tail h
    exact toc_read_elements_spec (els.length % 256) els tail
      (Nat.mod_le els.length 256) h
  · intro version f eid top ord els hv hn heid hels
    have hmod : els.length % 256 = els.length := Nat.mod_eq_of_lt hn
    have htop : (decide ((((if top then 2 else 0) + (if ord then 1 else 0)) &&& 2) = 2)) = top := by
      cases top <;> cases ord <;> decide
    have hord : (decide ((((if top then 2 else 0) + (if ord then 1 else 0)) &&& 1) = 1)) = ord := by
      cases top <;> cases ord <;> decide
    unfold Decoder.table_of_contents_content
    rw [show eid ++ [0] ++ [(if top then 2 else 0) + (if ord then 1 else 0)] ++
        [els.length % 256] ++ (els.map fun e => e ++ [0]).flatten =
      eid ++ 0 :: ((if top then 2 else 0) + (if ord then 1 else 0)) ::
        (els.length % 256) :: (els.map fun e => e ++ [0]).flatten by simp]
    rw [string_delimited_latin1 eid _ heid, idbind_ok]
    simp only []
    rw [Decoder.byte_cons, idbind_ok]
    simp only []
    rw [Decoder.byte_cons, idbind_ok]
    simp only []
    rw [show (els.map fun e => e ++ [0]).flatten =
      (els.map fun e => e ++ [0]).flatten ++ [] by simp]
    rw [toc_read_elements_spec (els.length % 256) els [] (Nat.mod_le els.length 256) hels,
      idbind_ok]
    simp only [hmod, List.take_length, List.drop_length, List.map_nil,
      List.flatten_nil, List.nil_append]
    cases version with
    | Id3v22 => exact absurd rfl hv
    | Id3v23 =>
      unfold decode_nested_frames frame_decode_v3
      rw [if_pos rfl]
      simp only [idbind_ok, htop, hord]
      rfl
    | Id3v24 =>
      unfold decode_nested_frames frame_decode_v4
      rw [if_pos rfl]
      simp only [idbind_ok, htop, hord]
      rfl

/-- Witness for C9 at a concrete table: element id `"c"`, top-level, not
ordered, elements `["A", "B"]`, no nested frames, under 2.4. -/
theorem C9_ctoc_count_byte_witness :
    Encoder.table_of_contents_content .Id3v24 (.mk [99] true false [[65], [66]] []) =
      .ok ([99] ++ [0] ++ [2] ++ [2] ++ [65, 0, 66, 0]) ∧
    Decoder.table_of_contents_content 2 .Id3v24
        ([99] ++ [0] ++ [2] ++ [2] ++ [65, 0, 66, 0]) =
      .ok (.tableOfContents (.mk [99] true false [[65], [66]] [])) := by
  constructor
  · have := C9_ctoc_count_byte.1 .Id3v24 [99] true false [[65], [66]]
    simpa using this
  · have := C9_ctoc_count_byte.2.2 .Id3v24 0 [99] true false [[65], [66]]
      (by decide) (by decide) (by decide) (by decide)
    simpa using this

/-- The frames the 2.4 orchestrator loop decodes successfully before it
stops (an error, padding, or the end of the region) — the claim's "frames
that were successfully decoded before the failing frame, in their original
order". -/
def v4_frames_before_error : Nat → List Nat → Nat → Nat → List Frame
  | 0, _, _, _ => []
  | fuel + 1, r, offset, budget =>
    if offset < budget then
      match frame_decode_v4 (r.length + 1) r with
      | .error _ => []
      | .ok none => []
      | .ok (some (n, f, r2)) => f :: v4_frames_before_error fuel r2 (offset + n) budget
    else []

/-- As `v4_frames_before_error`, for the 2.3 loop. -/
def v3_frames_before_error : Nat → List Nat → Nat → Nat → List Frame
  | 0, _, _, _ => []
  | fuel + 1, r, offset, budget =>
    if offset < budget then
      match frame_decode_v3 (r.length + 1) r with
      | .error _ => []
      | .ok none => []
      | .ok (some (n, f, r2)) => f :: v3_frames_before_error fuel r2 (offset + n) budget
    else []

/-- As `v4_frames_before_error`, for the 2.2 loop. -/
def v2_frames_before_error : Nat → List Nat → List Frame
  | 0, _ => []
  | fuel + 1, r =>
    match frame_decode_v2 (r.length + 1) r with
    | .error _ => []
    | .ok none => []
    | .ok (some (_, f, r2)) => f :: v2_frames_before_error fuel r2

/-- The 2.4 loop invariant: an error carries the starting tag extended by
exactly the successfully decoded frames. -/
theorem decode_v4_loop_err_tag (fuel : Nat) :
    ∀ (r : List Nat) (offset budget : Nat) (tag : Tag) (e : Error),
      decode_v4_loop fuel r offset budget tag = .error e →
        e.partial_tag = some { tag with
          frames := tag.frames ++ v4_frames_before_error fuel r offset budget } := by
  induction fuel with
  | zero =>
    intro r offset budget tag e h
    unfold decode_v4_loop at h
    simp only [Except.error.injEq] at h
    subst h
    simp [Error.with_tag, Error.new, v4_frames_before_error]
  | succ fuel ih =>
    intro r offset budget tag e h
    unfold decode_v4_loop at h
    by_cases hob : offset < budget
    · rw [if_pos hob] at h
      unfold v4_frames_before_error
      rw [if_pos hob]
      cases hfd : frame_decode_v4 (r.length + 1) r with
      | error err =>
        rw [hfd] at h
        simp only [Except.error.injEq] at h
        subst h
        simp [Error.with_tag]
      | ok v =>
        cases v with
        | none =>
          rw [hfd] at h
          exact absurd h (by simp)
        | some t =>
          obtain ⟨n, f, r2⟩ := t
          rw [hfd] at h
          rw [ih r2 (offset + n) budget (tag.add_frame f) e h]
          simp [Tag.add_frame]
    · rw [if_neg hob] at h
      exact absurd h (by simp)

/-- The 2.3 loop invariant, as `decode_v4_loop_err_tag`. -/
theorem decode_v3_loop_err_tag (fuel : Nat) :
    ∀ (r : List Nat) (offset budget : Nat) (tag : Tag) (e : Error),
      decode_v3_loop fuel r offset budget tag = .error e →
        e.partial_tag = some { tag with
          frames := tag.frames ++ v3_frames_before_error fuel r offset budget } := by
  induction fuel with
  | zero =>
    intro r offset budget tag e h
    unfold decode_v3_loop at h
    simp only [Except.error.injEq] at h
    subst h
    simp [Error.with_tag, Error.new, v3_frames_before_error]
  | succ fuel ih =>
    intro r offset budget tag e h
    unfold decode_v3_loop at h
    by_cases hob : offset < budget
    · rw [if_pos hob] at h
      unfold v3_frames_before_error
      rw [if_pos hob]
      cases hfd : frame_decode_v3 (r.length + 1) r with
      | error err =>
        rw [hfd] at h
        simp only [Except.error.injEq] at h
        subst h
        simp [Error.with_tag]
      | ok v =>
        cases v with
        | none =>
          rw [hfd] at h
          exact absurd h (by simp)
        | some t =>
          obtain ⟨n, f, r2⟩ := t
          rw [hfd] at h
          rw [ih r2 (offset + n) budget (tag.add_frame f) e h]
          simp [Tag.add_frame]
    · rw [if_neg hob] at h
      exact absurd h (by simp)

/-- The 2.2 loop invariant, as `decode_v4_loop_err_tag`. -/
theorem decode_v2_loop_err_tag (fuel : Nat) :
    ∀ (r : List Nat) (tag : Tag) (e : Error),
      decode_v2_loop fuel r tag = .error e →
        e.partial_tag = some { tag with
          frames := tag.frames ++ v2_frames_before_error fuel r } := by
  induction fuel with
  | zero =>
    intro r tag e h
    unfold decode_v2_loop at h
    simp only [Except.error.injEq] at h
    subst h
    simp [Error.with_tag, Error.new, v2_frames_before_error]
  | succ fuel ih =>
    intro r tag e h
    unfold decode_v2_loop at h
    unfold v2_frames_before_error
    cases hfd : frame_decode_v2 (r.length + 1) r with
    | error err =>
      rw [hfd] at h
      simp only [Except.error.injEq] at h
      subst h
      simp [Error.with_tag]
    | ok v =>
      cases v with
      | none =>
        rw [hfd] at h
        exact absurd h (by simp)
      | some t =>
        obtain ⟨n, f, r2⟩ := t
        rw [hfd] at h
        rw [ih r2 (tag.add_frame f) e h]
        simp [Tag.add_frame]

/-- **C4.** Whenever a per-frame decode inside an orchestrator loop fails,
the returned error carries the partial tag holding exactly the frames
decoded before the failure, in order: stated for the 2.4 and 2.3 loops of
`decode_remaining` (from their initial state onward), for
`decode_v2_frames`, and for a whole 2.4 `decode_remaining` run. -/
theorem C4_partial_tag_on_frame_failure :
    (∀ (fuel : Nat) (r : List Nat) (offset budget : Nat) (tag : Tag) (e : Error),
      decode_v4_loop fuel r offset budget tag = .error e →
        e.partial_tag = some { tag with
          frames := tag.frames ++ v4_frames_before_error fuel r offset budget }) ∧
    (∀ (fuel : Nat) (r : List Nat) (offset budget : Nat) (tag : Tag) (e : Error),
      decode_v3_loop fuel r offset budget tag = .error e →
        e.partial_tag = some { tag with
          frames := tag.frames ++ v3_frames_before_error fuel r offset budget }) ∧
    (∀ (r : List Nat) (e : Error),
      decode_v2_frames r = .error e →
        e.partial_tag = some ⟨v2_frames_before_error (r.length + 1) r, .Id3v22, 0⟩) ∧
    (∀ (r : List Nat) (header : Header) (e : Error), header.version = .Id3v24 →
      decode_remaining r header = .error e →
        e.partial_tag = some
          ⟨v4_frames_before_error (r.length + 1) r 0 header.frame_bytes, .Id3v24, 0⟩) := by
  refine ⟨decode_v4_loop_err_tag, decode_v3_loop_err_tag, ?_, ?_⟩
  · intro r e h
    unfold decode_v2_frames at h
    have := decode_v2_loop_err_tag (r.length + 1) r (Tag.with_version .Id3v22) e h
    simpa [Tag.with_version] using this
  · intro r header e hv h
    unfold decode_remaining at h
    rw [hv] at h
    have := decode_v4_loop_err_tag (r.length + 1) r 0 header.frame_bytes
      (Tag.with_version .Id3v24) e h
    simpa [Tag.with_version] using this

/-- Witness for C4: one well-formed 2.4 `TIT2` frame followed by a
truncated frame header; the orchestrator fails with an I/O error whose
partial tag holds exactly the `TIT2` frame. -/
theorem C4_partial_tag_on_frame_failure_witness :
    decode_remaining
        ([84, 73, 84, 50, 0, 0, 0, 3, 0, 0, 3, 104, 105] ++ [84, 73, 84, 50, 9, 9])
        ⟨.Id3v24, 0, 100, 0⟩ =
      .error ⟨.Io, "unexpected EOF in frame header",
        some ⟨[Frame.mk "TIT2" (.text [104, 105]) false false], .Id3v24, 0⟩⟩ ∧
    (⟨.Io, "unexpected EOF in frame header",
        some ⟨[Frame.mk "TIT2" (.text [104, 105]) false false], .Id3v24, 0⟩⟩ :
        Error).partial_tag =
      some ⟨v4_frames_before_error 20
        ([84, 73, 84, 50, 0, 0, 0, 3, 0, 0, 3, 104, 105] ++ [84, 73, 84, 50, 9, 9])
        0 100, .Id3v24, 0⟩ := by
  refine ⟨by rfl, ?_⟩
  have := C4_partial_tag_on_frame_failure.2.2.2
    ([84, 73, 84, 50, 0, 0, 0, 3, 0, 0, 3, 104, 105] ++ [84, 73, 84, 50, 9, 9])
    ⟨.Id3v24, 0, 100, 0⟩
    ⟨.Io, "unexpected EOF in frame header",
      some ⟨[Frame.mk "TIT2" (.text [104, 105]) false false], .Id3v24, 0⟩⟩
    rfl (by rfl)
  simpa using this

/-- Disjoint bit ranges: OR-ing a value below `2 ^ k` into a multiple of
`2 ^ k` is addition. -/
theorem lor_mul_two_pow_add {k : Nat} (a b : Nat) (hb : b < 2 ^ k) :
    (a * 2 ^ k) ||| b = a * 2 ^ k + b := by
  rw [Nat.mul_comm a (2 ^ k)]
  exact (Nat.mul_add_lt_is_or hb a).symm

/-- The first of the eight big-endian bytes of a u64. -/
theorem toBeBytes8_take_one (x : Nat) :
    (toBeBytes8 x).take 1 = [x / 72057594037927936 % 256] := rfl

/-- Packing a 12-bit field into an empty carry: one byte (the field's high
8 bits) is emitted and its low 4 bits stay in the carry. -/
theorem mllt_pack_fst (db : Nat) (out : List Nat) (hdb : db < 4096) :
    mllt_pack_step 12 db (0, 0, out) =
      (db % 16 * 2 ^ 60, 4, out ++ [db / 16]) := by
  simp only [mllt_pack_step, Nat.zero_or, Nat.shiftLeft_eq, Prod.mk.injEq]
  rw [show db &&& 4095 = db by
    rw [show (4095 : Nat) = 2 ^ 12 - 1 by norm_num,
      Nat.and_pow_two_sub_one_eq_mod, Nat.mod_eq_of_lt hdb]]
  norm_num
  refine ⟨by omega, ?_⟩
  rw [toBeBytes8_take_one,
    show db * 4503599627370496 / 72057594037927936 % 256 = db / 16 by omega]

/-- Packing a 4-bit field into a carry holding 4 bits: one byte is emitted
and the carry empties. -/
theorem mllt_pack_snd (dm x : Nat) (out : List Nat) (hx : x < 16) (hdm : dm < 16) :
    mllt_pack_step 4 dm (x * 2 ^ 60, 4, out) =
      (0, 0, out ++ [x * 16 + dm]) := by
  simp only [mllt_pack_step, Nat.shiftLeft_eq, Prod.mk.injEq]
  rw [show dm &&& 15 = dm by
    rw [show (15 : Nat) = 2 ^ 4 - 1 by norm_num,
      Nat.and_pow_two_sub_one_eq_mod, Nat.mod_eq_of_lt hdm]]
  rw [show x * 2 ^ 60 ||| dm * 2 ^ 56 = x * 2 ^ 60 + dm * 2 ^ 56 from
    lor_mul_two_pow_add x (dm * 2 ^ 56) (by omega)]
  norm_num
  refine ⟨by omega, ?_⟩
  rw [toBeBytes8_take_one,
    show (x * 1152921504606846976 + dm * 72057594037927936) / 72057594037927936 % 256
    = x * 16 + dm by omega]

/-- The two bytes one reference occupies on the wire for bit widths 12/4. -/
def mllt_pair_bytes (r : MpegLocationLookupTableReference) : List Nat :=
  [r.deviate_bytes / 16, r.deviate_bytes % 16 * 16 + r.deviate_millis]

/-- The whole 12/4 packing loop: the carry returns to empty after every
reference, and the output is the concatenation of the per-reference byte
pairs. -/
theorem mllt_pack_fold (refs : List MpegLocationLookupTableReference) :
    ∀ out, (∀ x ∈ refs, x.deviate_bytes < 4096 ∧ x.deviate_millis < 16) →
    refs.foldl (fun st x => mllt_pack_step 4 x.deviate_millis
        (mllt_pack_step 12 x.deviate_bytes st)) (0, 0, out) =
      (0, 0, out ++ (refs.map mllt_pair_bytes).flatten) := by
  induction refs with
  | nil =>
    intro out _
    simp
  | cons x refs ih =>
    intro out h
    have hx := h x (List.mem_cons_self x refs)
    simp only [List.foldl_cons]
    rw [mllt_pack_fst _ _ hx.1,
      mllt_pack_snd _ _ _ (Nat.mod_lt _ (by norm_num)) hx.2]
    rw [ih _ (fun y hy => h y (List.mem_cons_of_mem x hy))]
    simp [mllt_pair_bytes]

/-- Loading two bytes into an empty decode carry. -/
theorem mllt_load_pair (b1 b2 : Nat) (h2 : b2 < 256) :
    [b1, b2].foldl mllt_load (0, 0) = (b1 * 2 ^ 56 + b2 * 2 ^ 48, 16) := by
  simp only [List.foldl_cons, List.foldl_nil, mllt_load, Nat.shiftLeft_eq,
    Nat.zero_or]
  norm_num
  rw [show b1 * 72057594037927936 ||| b2 * 281474976710656 =
    b1 * 72057594037927936 + b2 * 281474976710656 from
      lor_mul_two_pow_add b1 (b2 * 281474976710656) (by omega) (k := 56)]

/-- One iteration of the 12/4 unpacking loop starting from an empty carry:
two bytes are consumed and yield one reference, the carry empty again. -/
theorem mllt_unpack_step (b1 b2 : Nat) (rest : List Nat) (fuel : Nat)
    (acc : List MpegLocationLookupTableReference) (h2 : b2 < 256) :
    mllt_unpack 12 4 (fuel + 1) (b1 :: b2 :: rest) 0 0 acc =
      mllt_unpack 12 4 fuel rest 0 0 (acc ++ [⟨b1 * 16 + b2 / 16, b2 % 16⟩]) := by
  simp only [mllt_unpack]
  rw [show List.take ((12 + 4) / 8) (b1 :: b2 :: rest) = [b1, b2] from rfl,
    show List.drop ((12 + 4) / 8) (b1 :: b2 :: rest) = rest from rfl]
  rw [mllt_load_pair b1 b2 h2]
  rw [if_neg (by norm_num)]
  rw [if_neg (by norm_num)]
  simp only [Nat.shiftLeft_eq, Nat.shiftRight_eq_div_pow]
  norm_num
  rw [show (b1 * 72057594037927936 + b2 * 281474976710656) / 4503599627370496 =
      b1 * 16 + b2 / 16 by omega,
    show (b1 * 72057594037927936 + b2 * 281474976710656) * 4096 %
        18446744073709551616 = b2 % 16 * 1152921504606846976 by omega,
    show b2 % 16 * 1152921504606846976 / 1152921504606846976 = b2 % 16 by omega,
    show (b1 * 72057594037927936 + b2 * 281474976710656) * 4096 * 16 %
      18446744073709551616 = 0 by omega]

/-- The unpacking loop stops at an empty buffer. -/
theorem mllt_unpack_nil (bb bm fuel c n : Nat)
    (acc : List MpegLocationLookupTableReference) :
    mllt_unpack bb bm fuel [] c n acc = .ok acc := by
  cases fuel <;> rfl

/-- Unpacking the packed byte pairs restores the references, given enough
fuel for one iteration per reference. -/
theorem mllt_unpack_fold (refs : List MpegLocationLookupTableReference) :
    ∀ (fuel : Nat) (acc : List MpegLocationLookupTableReference),
      refs.length ≤ fuel →
      (∀ x ∈ refs, x.deviate_bytes < 4096 ∧ x.deviate_millis < 16) →
      mllt_unpack 12 4 fuel ((refs.map mllt_pair_bytes).flatten) 0 0 acc =
        .ok (acc ++ refs) := by
  induction refs with
  | nil =>
    intro fuel acc _ _
    simp [mllt_unpack_nil]
  | cons x refs ih =>
    intro fuel acc hf h
    obtain ⟨a, b⟩ := x
    obtain ⟨ha, hb⟩ := h ⟨a, b⟩ (List.mem_cons_self _ refs)
    simp only [List.length_cons] at hf ha hb
    cases fuel with
    | zero => omega
    | succ fuel =>
      rw [show (((⟨a, b⟩ : MpegLocationLookupTableReference) :: refs).map
          mllt_pair_bytes).flatten =
        a / 16 :: (a % 16 * 16 + b) :: (refs.map mllt_pair_bytes).flatten by
          simp [mllt_pair_bytes]]
      rw [mllt_unpack_step _ _ _ fuel acc (by omega)]
      rw [show (⟨a / 16 * 16 + (a % 16 * 16 + b) / 16, (a % 16 * 16 + b) % 16⟩ :
          MpegLocationLookupTableReference) = ⟨a, b⟩ by
        simp only [MpegLocationLookupTableReference.mk.injEq]
        exact ⟨by omega, by omega⟩]
      have hih := ih fuel (acc ++ [(⟨a, b⟩ : MpegLocationLookupTableReference)])
        (by omega) (fun y hy => h y (List.mem_cons_of_mem _ hy))
      rw [hih]
      simp

/-- Counterexample for **C3** as literally stated: the claim promises the
decoded table carries "exactly the same header fields" for *any* table
with bit widths 12/4 and five in-range references, but
`bytes_between_reference` is a `u32` written as three bytes
(`to_be_bytes()[1..]`), so the value `2 ^ 24` encodes as zero and decodes
to a table whose header differs. -/
theorem C3_mllt_roundtrip_counterexample :
    Encoder.mpeg_location_lookup_table_content
        ⟨0, 16777216, 0, 12, 4, List.replicate 5 ⟨0, 0⟩⟩ =
      .ok [0, 0, 0, 0, 0, 0, 0, 0, 12, 4, 0, 0, 0, 0, 0, 0, 0, 0, 0, 0] ∧
    Decoder.mpeg_location_lookup_table_content
        [0, 0, 0, 0, 0, 0, 0, 0, 12, 4, 0, 0, 0, 0, 0, 0, 0, 0, 0, 0] =
      .ok (.mpegLocationLookupTable ⟨0, 0, 0, 12, 4, List.replicate 5 ⟨0, 0⟩⟩) ∧
    (⟨0, 0, 0, 12, 4, List.replicate 5 ⟨0, 0⟩⟩ : MpegLocationLookupTable) ≠
      ⟨0, 16777216, 0, 12, 4, List.replicate 5 ⟨0, 0⟩⟩ :=
  ⟨rfl, rfl, by decide⟩

/-- **C3** (amended).  For a table with `bits_for_bytes = 12`,
`bits_for_millis = 4` and five references whose deviations fit their bit
widths, encoding and then decoding restores the table exactly — provided
the two between-reference header fields also fit their 24-bit wire width
(the `u16` frames field fits by its type). -/
theorem C3_mllt_bit_packing_roundtrip (c : MpegLocationLookupTable)
    (hbb : c.bits_for_bytes = 12) (hbm : c.bits_for_millis = 4)
    (hlen : c.references.length = 5)
    (hfb : c.frames_between_reference < 2 ^ 16)
    (hb : c.bytes_between_reference < 2 ^ 24)
    (hm : c.millis_between_reference < 2 ^ 24)
    (hrefs : ∀ x ∈ c.references,
      x.deviate_bytes < 2 ^ 12 ∧ x.deviate_millis < 2 ^ 4) :
    ∃ bs, Encoder.mpeg_location_lookup_table_content c = .ok bs ∧
      Decoder.mpeg_location_lookup_table_content bs =
        .ok (.mpegLocationLookupTable c) := by
  obtain ⟨fb, bb, mb, bbits, mbits, refs⟩ := c
  simp only at hbb hbm hlen hfb hb hm hrefs
  subst hbb hbm
  have hrefs2 : ∀ x ∈ refs, x.deviate_bytes < 4096 ∧ x.deviate_millis < 16 := by
    intro x hx
    exact hrefs x hx
  refine ⟨fb / 256 % 256 :: fb % 256 :: bb / 65536 % 256 :: bb / 256 % 256 ::
    bb % 256 :: mb / 65536 % 256 :: mb / 256 % 256 :: mb % 256 :: 12 :: 4 ::
    (refs.map mllt_pair_bytes).flatten, ?_, ?_⟩
  · unfold Encoder.mpeg_location_lookup_table_content
    rw [if_neg (by norm_num), if_neg (by norm_num)]
    rw [show (refs.foldl (fun st r => mllt_pack_step 4 r.deviate_millis
        (mllt_pack_step 12 r.deviate_bytes st)) (0, 0, [])) =
      (0, 0, [] ++ (refs.map mllt_pair_bytes).flatten) from
        mllt_pack_fold refs [] hrefs2]
    simp [Encoder.uint16, Encoder.uint24]
  · unfold Decoder.mpeg_location_lookup_table_content
    rw [Decoder.uint16_cons, idbind_ok]
    simp only []
    rw [Decoder.uint24_cons, idbind_ok]
    simp only []
    rw [Decoder.uint24_cons, idbind_ok]
    simp only []
    rw [Decoder.byte_cons, idbind_ok]
    simp only []
    rw [Decoder.byte_cons, idbind_ok]
    simp only []
    rw [if_neg (by norm_num), if_neg (by norm_num)]
    rw [mllt_unpack_fold refs _ [] (by omega) hrefs2]
    rw [idbind_ok]
    simp only [List.nil_append]
    rw [show fb / 256 % 256 * 256 + fb % 256 = fb by omega,
      show bb / 65536 % 256 * 65536 + bb / 256 % 256 * 256 + bb % 256 = bb by omega,
      show mb / 65536 % 256 * 65536 + mb / 256 % 256 * 256 + mb % 256 = mb by omega]
    rfl

/-- Witness for the amended C3 at a concrete five-reference table. -/
theorem C3_mllt_bit_packing_roundtrip_witness :
    ∃ bs, Encoder.mpeg_location_lookup_table_content
        ⟨7, 5, 6, 12, 4, [⟨1, 2⟩, ⟨4095, 15⟩, ⟨0, 0⟩, ⟨100, 7⟩, ⟨2048, 8⟩]⟩ =
      .ok bs ∧
      Decoder.mpeg_location_lookup_table_content bs =
        .ok (.mpegLocationLookupTable
          ⟨7, 5, 6, 12, 4, [⟨1, 2⟩, ⟨4095, 15⟩, ⟨0, 0⟩, ⟨100, 7⟩, ⟨2048, 8⟩]⟩) :=
  C3_mllt_bit_packing_roundtrip
    ⟨7, 5, 6, 12, 4, [⟨1, 2⟩, ⟨4095, 15⟩, ⟨0, 0⟩, ⟨100, 7⟩, ⟨2048, 8⟩]⟩
    rfl rfl rfl (by norm_num) (by norm_num) (by norm_num) (by decide)

/-- Witness for C5 at the concrete inputs of the claim: a `Picture` with
MIME type `image/gif`, and a `PIC` body with format code `GIF`. -/
theorem C5_picture_mime_restriction_witness :
    Encoder.picture_content .Id3v22 .Latin1
        ⟨[105, 109, 97, 103, 101, 47, 103, 105, 102], .CoverFront, [100], [1, 2]⟩ =
      .error (Error.new .Parsing "unsupported MIME type") ∧
    (∃ bs, Encoder.picture_content .Id3v23 .Latin1
        ⟨[105, 109, 97, 103, 101, 47, 103, 105, 102], .CoverFront, [100], [1, 2]⟩ =
      .ok bs) ∧
    Decoder.picture_content_v2 (0 :: ([71, 73, 70] ++ [3, 100, 0, 9, 9])) =
      .error (Error.new .UnsupportedFeature
        "can't determine MIME type for image format") :=
  ⟨C5_picture_mime_restriction.1 .Latin1 _ (by decide) (by decide) (by decide),
   C5_picture_mime_restriction.2.1 .Latin1 _,
   C5_picture_mime_restriction.2.2 [71, 73, 70] [3, 100, 0, 9, 9] (by decide)
     (by decide) (by decide)⟩

end Id3
